import Mathlib

/-!
Verification of the conversational knowledge pipeline of the Kittu's
Universe repository: session store, fact extractor fallback, memory bank,
conflict resolver and response-engine post-processing.

Shallow embedding conventions:
* JavaScript numbers carrying confidences and similarity scores are
  modelled as rationals (the code only adds, averages, divides and
  compares them).
* Timestamps (`Date` values) are modelled as integers, milliseconds since
  the epoch; `Date.now()` / `new Date()` appear as an explicit `now`
  argument.  `Date.toDateString()` (the timeline-index key) is modelled as
  the calendar-day number `timestamp / 86400000` (floor division).
* JavaScript `Map`s are insertion-ordered association lists; `Set`s of
  fact ids are `Finset String` (the code only queries membership/size).
* Case-insensitive regular expressions are evaluated over the lowercased
  character list of the subject string; `.` is allowed to match any
  character (the inputs of interest contain no newline).
-/

/-! ## Basic string utilities -/

/-- Lowercased character list of a string (JS `toLowerCase` on ASCII). -/
def lcChars (s : String) : List Char := s.data.map Char.toLower

/-- Whether `s` begins with `pat` (character-wise). -/
def beginsWith : List Char → List Char → Bool
  | [], _ => true
  | _ :: _, [] => false
  | a :: as, b :: bs => a == b && beginsWith as bs

/-- Whether `pat` occurs as a contiguous substring of `s`
(JS `String.includes`). -/
def hasSub (pat : List Char) : List Char → Bool
  | [] => beginsWith pat []
  | c :: t => beginsWith pat (c :: t) || hasSub pat t

/-- `String.includes` of the source, on already-lowercased inputs. -/
def strIncludes (s pat : String) : Bool := hasSub pat.data s.data

/-! ## Shared data model (`real-time-fact-learner.ts`, `conflict-resolver.ts`) -/

/-- The fixed category enum of `LearnedFact` in `real-time-fact-learner.ts`. -/
inductive Category where
  | personal
  | relationship
  | preferences
  | emotions
  | plans
  | interests
  | concerns
deriving DecidableEq

/-- `LearnedFact` of `real-time-fact-learner.ts`. -/
structure LearnedFact where
  id : String
  content : String
  category : Category
  confidence : ℚ
  timestamp : Int
  source : String
  verified : Bool
deriving DecidableEq

/-- `conflictType` of `ConflictInfo`. -/
inductive ConflictType where
  | contradiction
  | inconsistency
  | ambiguity
  | temporal
deriving DecidableEq

/-- `severity` of `ConflictInfo`. -/
inductive Severity where
  | low
  | medium
  | high
deriving DecidableEq

/-- `suggestedResolution` of `ConflictInfo`. -/
inductive Resolution where
  | update
  | ignore
  | clarify
  | merge
deriving DecidableEq

/-- `ConflictInfo` of `conflict-resolver.ts`. -/
structure ConflictInfo where
  conflictId : String
  newFact : LearnedFact
  existingFact : LearnedFact
  conflictType : ConflictType
  severity : Severity
  clarificationQuestion : String
  suggestedResolution : Resolution
deriving DecidableEq

/-! ## Response-engine conflict post-processing
(`ContextualResponseEngine.integrateConflictClarification`) -/

/-- Whether a conflict lands in the high-priority tier of
`integrateConflictClarification`. -/
def highPriority (c : ConflictInfo) : Bool :=
  decide (c.severity = Severity.high) || decide (c.conflictType = ConflictType.contradiction)

/-- Whether a conflict lands in the medium tier of
`integrateConflictClarification`. -/
def mediumSeverity (c : ConflictInfo) : Bool :=
  decide (c.severity = Severity.medium)

/-- `ContextualResponseEngine.integrateConflictClarification`: appends the
first high-priority conflict's question, else the first medium-severity
conflict's question, else returns the reply unchanged. -/
def integrateConflictClarification (response : String) (conflicts : List ConflictInfo) : String :=
  let highPriorityConflicts := conflicts.filter highPriority
  match highPriorityConflicts with
  | conflict :: _ => response ++ "\n\nWait bestie, " ++ conflict.clarificationQuestion
  | [] =>
    let needsAttention := conflicts.filter mediumSeverity
    match needsAttention with
    | conflict :: _ => response ++ "\n\nBy the way, " ++ conflict.clarificationQuestion
    | [] => response

/-- A sample conflict used to exercise the response-engine tiers. -/
def sampleConflict : ConflictInfo :=
  { conflictId := "conflict_0_1"
    newFact :=
      { id := "n1", content := "new", category := Category.preferences
        confidence := mkRat 9 10, timestamp := 0, source := "new", verified := true }
    existingFact :=
      { id := "e1", content := "old", category := Category.preferences
        confidence := mkRat 8 10, timestamp := 0, source := "old", verified := true }
    conflictType := ConflictType.ambiguity
    severity := Severity.medium
    clarificationQuestion := "which one?"
    suggestedResolution := Resolution.clarify }

/-! ## Association-list model of JavaScript `Map` -/

/-- `Map.get`: value of the first pair with the given key. -/
def alookup [DecidableEq α] : List (α × β) → α → Option β
  | [], _ => none
  | p :: ps, k => if p.1 = k then some p.2 else alookup ps k

/-- `Map.set`: update the pair with the given key in place, or append a
fresh pair at the end (JS `Map`s are insertion ordered). -/
def aset [DecidableEq α] (l : List (α × β)) (k : α) (v : β) : List (α × β) :=
  if l.any (fun p => decide (p.1 = k)) then
    l.map (fun p => if p.1 = k then (k, v) else p)
  else l ++ [(k, v)]

/-- `Map.delete`: drop the pair with the given key. -/
def aerase [DecidableEq α] (l : List (α × β)) (k : α) : List (α × β) :=
  l.filter (fun p => decide (p.1 ≠ k))

/-! ## Memory bank (`intelligent-memory-bank.ts`) -/

/-- `MemoryEntry` of `intelligent-memory-bank.ts`. -/
structure MemoryEntry where
  fact : LearnedFact
  lastAccessed : Int
  accessCount : Nat
  verified : Bool
  confidence : ℚ
  relatedFacts : List String
deriving DecidableEq

/-- The state of an `IntelligentMemoryBank`: the `memory` map plus the two
derived indexes (`Map<string, Set<string>>`, keyed by category and by the
timestamp's calendar day). -/
structure MemoryBank where
  memory : List (String × MemoryEntry)
  categoryIndex : List (Category × Finset String)
  timelineIndex : List (Int × Finset String)
deriving DecidableEq

/-- A bank with no facts (the constructor state). -/
def emptyBank : MemoryBank := { memory := [], categoryIndex := [], timelineIndex := [] }

/-- `Date.toDateString` as a calendar-day key: the timestamp's day number. -/
def dateKey (t : Int) : Int := t / 86400000

/-- Add a fact id to the bucket of an index (creating the bucket on first
use), as `updateIndexes` does for each index. -/
def bucketAdd [DecidableEq α] (idx : List (α × Finset String)) (k : α) (id : String) :
    List (α × Finset String) :=
  match alookup idx k with
  | none => idx ++ [(k, {id})]
  | some s => aset idx k (insert id s)

/-- Remove a fact id from the bucket of an index, deleting the bucket when
it becomes empty, as `deleteFact` does for each index. -/
def bucketRemove [DecidableEq α] (idx : List (α × Finset String)) (k : α) (id : String) :
    List (α × Finset String) :=
  match alookup idx k with
  | none => idx
  | some s =>
    let s' := s.erase id
    if s' = ∅ then aerase idx k else aset idx k s'

/-- `IntelligentMemoryBank.updateIndexes`. -/
def updateIndexes (b : MemoryBank) (fact : LearnedFact) : MemoryBank :=
  { b with
    categoryIndex := bucketAdd b.categoryIndex fact.category fact.id
    timelineIndex := bucketAdd b.timelineIndex (dateKey fact.timestamp) fact.id }

/-- `IntelligentMemoryBank.storeFact`: upsert a `MemoryEntry` for the fact
and index it.  `now` stands for the `new Date()` taken at the call. -/
def storeFact (b : MemoryBank) (fact : LearnedFact) (relatedFactIds : List String)
    (now : Int) : MemoryBank :=
  let entry : MemoryEntry :=
    { fact := fact
      lastAccessed := now
      accessCount := 0
      verified := fact.verified
      confidence := fact.confidence
      relatedFacts := relatedFactIds }
  updateIndexes { b with memory := aset b.memory fact.id entry } fact

/-- `IntelligentMemoryBank.updateFactConfidence`: clamp to [0,1] and
overwrite; no-op on an unknown id. -/
def updateFactConfidence (b : MemoryBank) (factId : String) (newConfidence : ℚ)
    (verified : Bool) (now : Int) : MemoryBank :=
  match alookup b.memory factId with
  | none => b
  | some entry =>
    let entry' :=
      { entry with
        confidence := max 0 (min 1 newConfidence)
        verified := verified
        lastAccessed := now }
    { b with memory := aset b.memory factId entry' }

/-- The user's choice handed to `resolveConflict`. -/
inductive UserChoice where
  | new
  | existing
  | merge
deriving DecidableEq

/-- The merged fact built by `resolveConflict` for the `merge` choice. -/
def mergedFactOf (conflictInfo : ConflictInfo) (now : Int) : LearnedFact :=
  { id := "merged_" ++ toString now
    content := conflictInfo.existingFact.content ++ "; " ++ conflictInfo.newFact.content
    category := conflictInfo.newFact.category
    confidence := (conflictInfo.existingFact.confidence + conflictInfo.newFact.confidence) / 2
    timestamp := now
    source := "Merged: " ++ conflictInfo.newFact.source
    verified := true }

/-- `IntelligentMemoryBank.resolveConflict`. -/
def resolveConflict (b : MemoryBank) (conflictInfo : ConflictInfo)
    (userChoice : UserChoice) (now : Int) : MemoryBank :=
  match userChoice with
  | UserChoice.new =>
    let b1 := updateFactConfidence b conflictInfo.existingFact.id (mkRat 3 10) false now
    storeFact b1 conflictInfo.newFact [conflictInfo.existingFact.id] now
  | UserChoice.existing =>
    let b1 := updateFactConfidence b conflictInfo.existingFact.id
      (min 1 (conflictInfo.existingFact.confidence + mkRat 2 10)) true now
    storeFact b1 { conflictInfo.newFact with confidence := mkRat 2 10 }
      [conflictInfo.existingFact.id] now
  | UserChoice.merge =>
    storeFact b (mergedFactOf conflictInfo now)
      [conflictInfo.existingFact.id, conflictInfo.newFact.id] now

/-- The nested `category -> id -> content` object of `exportKnowledge`
(`Object` keys are insertion ordered, like `Map` keys). -/
abbrev Snapshot : Type := List (Category × List (String × String))

/-- Insert one entry into the nested export object. -/
def nestedInsert (acc : Snapshot) (c : Category) (kv : String × String) : Snapshot :=
  match alookup acc c with
  | none => acc ++ [(c, [kv])]
  | some kvs => aset acc c (kvs ++ [kv])

/-- `IntelligentMemoryBank.exportKnowledge`. -/
def exportKnowledge (b : MemoryBank) : Snapshot :=
  b.memory.foldl (fun acc p => nestedInsert acc p.2.fact.category (p.1, p.2.fact.content)) []

/-- The fact `importKnowledge` builds for one imported key/content pair. -/
def importedFact (key content : String) (category : Category) (now : Int) : LearnedFact :=
  { id := key
    content := content
    category := category
    confidence := mkRat 8 10
    timestamp := now
    source := "imported knowledge"
    verified := true }

/-- `IntelligentMemoryBank.importKnowledge`: store every entry of the
snapshot at confidence 0.8, marked verified. -/
def importKnowledge (b : MemoryBank) (knowledge : Snapshot) (now : Int) : MemoryBank :=
  knowledge.foldl
    (fun b1 ck =>
      ck.2.foldl (fun b2 kv => storeFact b2 (importedFact kv.1 kv.2 ck.1 now) [] now) b1)
    b

/-- `IntelligentMemoryBank.deleteFact` (private helper of `cleanup`). -/
def deleteFact (b : MemoryBank) (factId : String) : MemoryBank :=
  match alookup b.memory factId with
  | none => b
  | some entry =>
    { memory := aerase b.memory factId
      categoryIndex := bucketRemove b.categoryIndex entry.fact.category factId
      timelineIndex := bucketRemove b.timelineIndex (dateKey entry.fact.timestamp) factId }

/-- The deletion test of `cleanup` for one entry. -/
def cleanupPred (minConfidence : ℚ) (cutoffDate : Int) (entry : MemoryEntry) : Prop :=
  entry.confidence < minConfidence ∧ entry.fact.timestamp < cutoffDate ∧
    entry.accessCount = 0

instance (minConfidence : ℚ) (cutoffDate : Int) (entry : MemoryEntry) :
    Decidable (cleanupPred minConfidence cutoffDate entry) := by
  unfold cleanupPred; infer_instance

/-- `IntelligentMemoryBank.cleanup`: collect every fact that is below the
confidence floor, older than the cutoff and never accessed, then delete
them. -/
def cleanup (b : MemoryBank) (minConfidence : ℚ) (maxAge : Int) (now : Int) : MemoryBank :=
  let cutoffDate := now - maxAge * 24 * 60 * 60 * 1000
  let toDelete :=
    (b.memory.filter (fun p => decide (cleanupPred minConfidence cutoffDate p.2))).map
      (fun p => p.1)
  toDelete.foldl deleteFact b

/-! ## Reachable bank states -/

/-- One public memory-bank call, with the `Date.now()` of the call made
explicit. -/
inductive MBOp where
  | store (fact : LearnedFact) (related : List String) (now : Int)
  | updateConf (factId : String) (newConfidence : ℚ) (verified : Bool) (now : Int)
  | resolve (conflictInfo : ConflictInfo) (choice : UserChoice) (now : Int)
  | importK (knowledge : Snapshot) (now : Int)
  | clean (minConfidence : ℚ) (maxAge : Int) (now : Int)

/-- Apply one call to a bank state. -/
def applyOp (b : MemoryBank) : MBOp → MemoryBank
  | MBOp.store fact related now => storeFact b fact related now
  | MBOp.updateConf factId c v now => updateFactConfidence b factId c v now
  | MBOp.resolve ci choice now => resolveConflict b ci choice now
  | MBOp.importK knowledge now => importKnowledge b knowledge now
  | MBOp.clean minC maxAge now => cleanup b minC maxAge now

/-- The bank state after a sequence of calls, starting from the empty bank. -/
def runOps (ops : List MBOp) : MemoryBank := ops.foldl applyOp emptyBank

/-- The claimed confidence invariant: every stored entry's confidence lies
in [0,1]. -/
def ConfOK (b : MemoryBank) : Prop :=
  ∀ p ∈ b.memory, 0 ≤ p.2.confidence ∧ p.2.confidence ≤ 1

instance (b : MemoryBank) : Decidable (ConfOK b) := by
  unfold ConfOK; infer_instance

/-- Whether one call is restricted to in-range confidences, and is one of
the four calls of claim C2 (`cleanup` is not among them). -/
def c2OpOK : MBOp → Prop
  | MBOp.store fact _ _ => 0 ≤ fact.confidence ∧ fact.confidence ≤ 1
  | MBOp.updateConf _ _ _ _ => True
  | MBOp.resolve ci choice _ =>
    match choice with
    | UserChoice.new => 0 ≤ ci.newFact.confidence ∧ ci.newFact.confidence ≤ 1
    | UserChoice.existing => True
    | UserChoice.merge =>
      (0 ≤ ci.newFact.confidence ∧ ci.newFact.confidence ≤ 1) ∧
        (0 ≤ ci.existingFact.confidence ∧ ci.existingFact.confidence ≤ 1)
  | MBOp.importK _ _ => True
  | MBOp.clean _ _ _ => False

instance (op : MBOp) : Decidable (c2OpOK op) := by
  unfold c2OpOK
  cases op with
  | store fact related now => infer_instance
  | updateConf factId c v now => infer_instance
  | resolve ci choice now => cases choice <;> infer_instance
  | importK knowledge now => infer_instance
  | clean minC maxAge now => infer_instance

/-! ## Word-boundary matching (JS regex `\b`, `\w`, `\s`) -/

/-- JS `\w`: ASCII letters, digits and underscore. -/
def isWordChar (c : Char) : Bool := c.isAlphanum || c == '_'

/-- Character of `s` at index `i`, if in range. -/
def nthChar (s : List Char) (i : Nat) : Option Char := (s.drop i).head?

/-- A `\b` boundary right before index `i` (for a pattern starting with a
word character). -/
def boundaryBefore (s : List Char) (i : Nat) : Bool :=
  match i with
  | 0 => true
  | j + 1 =>
    match nthChar s j with
    | none => true
    | some c => !isWordChar c

/-- A `\b` boundary right after index `i` (for a pattern ending with a
word character). -/
def boundaryAfter (s : List Char) (i : Nat) : Bool :=
  match nthChar s i with
  | none => true
  | some c => !isWordChar c

/-- `\b<w>\b` matches `s` at index `i`. -/
def wordAt (w : List Char) (s : List Char) (i : Nat) : Bool :=
  beginsWith w (s.drop i) && boundaryBefore s i && boundaryAfter s (i + w.length)

/-- `\b<w>\b` matches somewhere in `s`. -/
def wordOccurs (w : List Char) (s : List Char) : Bool :=
  (List.range (s.length + 1)).any (fun i => wordAt w s i)

/-- Lowercasing as a `String`-valued map (JS `toLowerCase`). -/
def lcString (s : String) : String := String.mk (lcChars s)

/-! ## Conversation sessions (`conversation-session-manager.ts`) -/

/-- `ChatMessage` of `types.ts` (sender is `"user"` or `"gigi"`). -/
structure ChatMessage where
  id : String
  text : String
  sender : String
  timestamp : Int
deriving DecidableEq

/-- The `context` field of a `ConversationSession`. -/
structure SessionContext where
  currentTopics : List String
  emotionalState : String
  ongoingConcerns : List String
deriving DecidableEq

/-- `ConversationSession` of `conversation-session-manager.ts`. -/
structure ConversationSession where
  sessionId : String
  messages : List ChatMessage
  lastActivity : Int
  context : SessionContext
deriving DecidableEq

/-- The session manager's `sessions` map. -/
abbrev SessionMap : Type := String → Option ConversationSession

/-- The eight topic patterns of `extractTopicsFromMessage`. -/
def topicPatterns : List (List String × String) :=
  [(["date", "dating", "going out"], "dating"),
   (["dress", "outfit", "wearing", "clothes"], "fashion"),
   (["restaurant", "food", "eating", "meal"], "food"),
   (["vahant", "boyfriend"], "relationship"),
   (["website", "dreamscape", "project"], "projects"),
   (["sad", "happy", "excited", "nervous", "angry"], "emotions"),
   (["work", "job", "office"], "work"),
   (["family", "friends", "social"], "social")]

/-- `ConversationSessionManager.extractTopicsFromMessage`. -/
def extractTopicsFromMessage (text : String) : List String :=
  let lowerText := lcChars text
  topicPatterns.filterMap (fun pt =>
    if pt.1.any (fun w => wordOccurs w.data lowerText) then some pt.2 else none)

/-- `new Set([...])` spread back into an array: drop duplicates, keeping
first occurrences in order. -/
def jsSetDedupAux (seen : List String) : List String → List String
  | [] => []
  | x :: t =>
    if x ∈ seen then jsSetDedupAux seen t else x :: jsSetDedupAux (x :: seen) t

/-- First-occurrence deduplication for topic lists. -/
def jsSetDedup (l : List String) : List String := jsSetDedupAux [] l

/-- The duplicate test of `updateSession`: same id, or same text/sender
within a 1000 ms timestamp tolerance. -/
def messageExists (session : ConversationSession) (message : ChatMessage) : Bool :=
  session.messages.any (fun existingMsg =>
    existingMsg.id == message.id ||
    (existingMsg.text == message.text && existingMsg.sender == message.sender &&
      decide ((existingMsg.timestamp - message.timestamp).natAbs < 1000)))

/-- `ConversationSessionManager.updateSession`: no-op on an unknown
session or a duplicate message; otherwise append the message, refresh
`lastActivity`, optionally set the emotional state (JS falsy test: the
empty string does not count), and re-derive the topic list for user
messages, keeping the last 5. -/
def updateSession (sessions : SessionMap) (sessionId : String) (message : ChatMessage)
    (emotionalState : Option String) (now : Int) : SessionMap :=
  match sessions sessionId with
  | none => sessions
  | some session =>
    if messageExists session message then sessions
    else
      let s1 := { session with
        messages := session.messages ++ [message]
        lastActivity := now }
      let s2 :=
        match emotionalState with
        | some es => if es = "" then s1 else { s1 with context := { s1.context with emotionalState := es } }
        | none => s1
      let s3 :=
        if message.sender = "user" then
          let topics := extractTopicsFromMessage message.text
          let merged := jsSetDedup (s2.context.currentTopics ++ topics)
          let merged' := if 5 < merged.length then merged.drop (merged.length - 5) else merged
          { s2 with context := { s2.context with currentTopics := merged' } }
        else s2
      fun sid => if sid = sessionId then some s3 else sessions sid

/-- Message count of a session (0 for an unknown session id). -/
def sessionMsgCount (sessions : SessionMap) (sessionId : String) : Nat :=
  match sessions sessionId with
  | none => 0
  | some session => session.messages.length

/-! ## Conflict resolver (`conflict-resolver.ts`) -/

/-- The like-polarity words of the preference-contradiction check. -/
def likeWords : List String := ["like", "love", "enjoy", "prefer"]

/-- The dislike-polarity words of the preference-contradiction check. -/
def dislikeWords : List String := ["hate", "dislike", "don't like", "avoid"]

/-- The positive/negative word pairs of the emotional-contradiction check. -/
def emotionConflicts : List (List String × List String) :=
  [(["happy", "excited", "joy"], ["sad", "angry", "depressed"]),
   (["love", "like"], ["hate", "dislike"]),
   (["calm", "relaxed"], ["nervous", "anxious", "stressed"])]

/-- JS `String.split` with a single-character separator (keeps empty
pieces, splits at every separator occurrence). -/
def jsSplitChar (sep : Char) : List Char → List (List Char)
  | [] => [[]]
  | c :: t =>
    let r := jsSplitChar sep t
    if c == sep then [] :: r
    else
      match r with
      | [] => [[c]]
      | w :: ws => (c :: w) :: ws

/-- `split(" ")` as a list of strings. -/
def jsSplitWords (s : String) : List String := (jsSplitChar ' ' s.data).map String.mk

/-- `ConflictResolver.findCommonTerms`: words longer than 3 characters
shared by the two (already lowercased) contents. -/
def findCommonTerms (text1 text2 : String) : List String :=
  let words1 := (jsSplitWords text1).filter (fun w => decide (3 < w.length))
  let words2 := (jsSplitWords text2).filter (fun w => decide (3 < w.length))
  words1.filter (fun word => decide (word ∈ words2))

/-- `ConflictResolver.calculateContentSimilarity`: Jaccard index of the
lowercased word sets. -/
def calculateContentSimilarity (text1 text2 : String) : ℚ :=
  let words1 := (jsSplitWords (lcString text1)).dedup
  let words2 := (jsSplitWords (lcString text2)).dedup
  let inter := words1.filter (fun word => decide (word ∈ words2))
  let union := (words1 ++ words2).dedup
  (inter.length : ℚ) / (union.length : ℚ)

/-- The loop over `emotionConflicts` inside `checkContradiction`. -/
def emotionClash (cid : String) (newFact existingFact : LearnedFact)
    (newContent existingContent : String) :
    List (List String × List String) → Option ConflictInfo
  | [] => none
  | (positive, negative) :: rest =>
    let newIsPositive := positive.any (fun word => strIncludes newContent word)
    let newIsNegative := negative.any (fun word => strIncludes newContent word)
    let existingIsPositive := positive.any (fun word => strIncludes existingContent word)
    let existingIsNegative := negative.any (fun word => strIncludes existingContent word)
    if (newIsPositive && existingIsNegative) || (newIsNegative && existingIsPositive) then
      some
        { conflictId := cid
          newFact := newFact
          existingFact := existingFact
          conflictType := ConflictType.contradiction
          severity := Severity.high
          clarificationQuestion :=
            "I noticed you mentioned feeling " ++
              (if newIsPositive then "positive" else "negative") ++
              " now, but earlier you seemed " ++
              (if existingIsPositive then "positive" else "negative") ++
              ". How are you actually feeling right now?"
          suggestedResolution := Resolution.clarify }
    else emotionClash cid newFact existingFact newContent existingContent rest

/-- `ConflictResolver.checkContradiction`: emotional polarity clashes,
the single-versus-Vahant relationship clash, and like/dislike preference
clashes gated on a shared content word. -/
def checkContradiction (cid : String) (newFact existingFact : LearnedFact) :
    Option ConflictInfo :=
  let newContent := lcString newFact.content
  let existingContent := lcString existingFact.content
  match
    (if newFact.category = Category.emotions then
      emotionClash cid newFact existingFact newContent existingContent emotionConflicts
    else none) with
  | some c => some c
  | none =>
    if newFact.category = Category.relationship ∧
        strIncludes newContent "single" = true ∧
        strIncludes existingContent "vahant" = true then
      some
        { conflictId := cid
          newFact := newFact
          existingFact := existingFact
          conflictType := ConflictType.contradiction
          severity := Severity.high
          clarificationQuestion :=
            "Wait bestie, are you single or are you with Vahant? I'm getting mixed signals here!"
          suggestedResolution := Resolution.clarify }
    else if newFact.category = Category.preferences then
      let newLikes := likeWords.any (fun word => strIncludes newContent word)
      let newDislikes := dislikeWords.any (fun word => strIncludes newContent word)
      let existingLikes := likeWords.any (fun word => strIncludes existingContent word)
      let existingDislikes := dislikeWords.any (fun word => strIncludes existingContent word)
      if (newLikes && existingDislikes) || (newDislikes && existingLikes) then
        match findCommonTerms newContent existingContent with
        | commonTerm :: _ =>
          some
            { conflictId := cid
              newFact := newFact
              existingFact := existingFact
              conflictType := ConflictType.contradiction
              severity := Severity.medium
              clarificationQuestion :=
                "I'm confused - do you like or dislike " ++ commonTerm ++
                  "? You've mentioned both!"
              suggestedResolution := Resolution.clarify }
        | [] => none
      else none
    else none

/-- The day/relative-day alternatives of `extractTimeReference`. -/
def timeWords1 : List String := ["today", "tomorrow", "tonight", "this evening"]

/-- The weekday alternatives of `extractTimeReference`. -/
def timeWords2 : List String :=
  ["monday", "tuesday", "wednesday", "thursday", "friday", "saturday", "sunday"]

/-- The week/month alternatives of `extractTimeReference`. -/
def timeWords4 : List String := ["next week", "this week", "next month"]

/-- The ordinal suffixes of `extractTimeReference`. -/
def ordinalSuffixes : List String := ["st", "nd", "rd", "th"]

/-- Leftmost `\b(alt|...)\b` match over a lowercased subject. -/
def findWordAlt (alts : List String) (s : List Char) : Option String :=
  (List.range (s.length + 1)).findSome? (fun i => alts.find? (fun w => wordAt w.data s i))

/-- `\b(\d{1,2})(st|nd|rd|th)\b` matched at index `i` with the greedy
two-digit attempt first; yields the matched characters. -/
def ordinalAt (s : List Char) (i : Nat) : Option (List Char) :=
  if boundaryBefore s i then
    match nthChar s i, nthChar s (i + 1) with
    | some c1, some c2 =>
      if c1.isDigit && c2.isDigit then
        match ordinalSuffixes.find?
            (fun suf => beginsWith suf.data (s.drop (i + 2)) && boundaryAfter s (i + 4)) with
        | some suf => some ([c1, c2] ++ suf.data)
        | none => none
      else if c1.isDigit then
        match ordinalSuffixes.find?
            (fun suf => beginsWith suf.data (s.drop (i + 1)) && boundaryAfter s (i + 3)) with
        | some suf => some ([c1] ++ suf.data)
        | none => none
      else none
    | some c1, none =>
      if c1.isDigit then
        match ordinalSuffixes.find?
            (fun suf => beginsWith suf.data (s.drop (i + 1)) && boundaryAfter s (i + 3)) with
        | some suf => some ([c1] ++ suf.data)
        | none => none
      else none
    | _, _ => none
  else none

/-- Leftmost ordinal-date match in a lowercased subject. -/
def findOrdinal (s : List Char) : Option String :=
  ((List.range (s.length + 1)).findSome? (fun i => ordinalAt s i)).map String.mk

/-- `ConflictResolver.extractTimeReference`: the four time patterns tried
in order, each returning its leftmost lowercased match. -/
def extractTimeReference (text : String) : Option String :=
  let s := lcChars text
  match findWordAlt timeWords1 s with
  | some w => some w
  | none =>
  match findWordAlt timeWords2 s with
  | some w => some w
  | none =>
  match findOrdinal s with
  | some w => some w
  | none => findWordAlt timeWords4 s

/-- `ConflictResolver.checkTemporalConflict`: plan facts both mentioning
"date" with two different extracted time references. -/
def checkTemporalConflict (cid : String) (newFact existingFact : LearnedFact) :
    Option ConflictInfo :=
  if newFact.category = Category.plans then
    let newContent := lcString newFact.content
    let existingContent := lcString existingFact.content
    if strIncludes newContent "date" && strIncludes existingContent "date" then
      match extractTimeReference newContent, extractTimeReference existingContent with
      | some newTime, some existingTime =>
        if newTime ≠ existingTime then
          some
            { conflictId := cid
              newFact := newFact
              existingFact := existingFact
              conflictType := ConflictType.temporal
              severity := Severity.medium
              clarificationQuestion :=
                "I heard about a date " ++ newTime ++ ", but earlier you mentioned " ++
                  existingTime ++ ". Which date is happening?"
              suggestedResolution := Resolution.clarify }
        else none
      | _, _ => none
    else none
  else none

/-- `ConflictResolver.checkInconsistency`: a low-confidence new fact
against a high-confidence existing fact with middling similarity. -/
def checkInconsistency (cid : String) (newFact existingFact : LearnedFact) :
    Option ConflictInfo :=
  if newFact.confidence < mkRat 6 10 ∧ existingFact.confidence > mkRat 8 10 then
    let similarity := calculateContentSimilarity newFact.content existingFact.content
    if similarity > mkRat 3 10 ∧ similarity < mkRat 8 10 then
      some
        { conflictId := cid
          newFact := newFact
          existingFact := existingFact
          conflictType := ConflictType.inconsistency
          severity := Severity.low
          clarificationQuestion :=
            "I want to make sure I understand correctly - you mentioned something similar before. Can you clarify?"
          suggestedResolution := Resolution.merge }
    else none
  else none

/-- `ConflictResolver.checkAmbiguity`: an unverified new fact of the same
category with high-but-not-identical similarity. -/
def checkAmbiguity (cid : String) (newFact existingFact : LearnedFact) :
    Option ConflictInfo :=
  if newFact.category = existingFact.category ∧ newFact.verified = false then
    let similarity := calculateContentSimilarity newFact.content existingFact.content
    if similarity > mkRat 5 10 ∧ similarity < mkRat 9 10 then
      some
        { conflictId := cid
          newFact := newFact
          existingFact := existingFact
          conflictType := ConflictType.ambiguity
          severity := Severity.low
          clarificationQuestion :=
            "Just to be clear, are you talking about the same thing as before, or is this something new?"
          suggestedResolution := Resolution.clarify }
    else none
  else none

/-- The mock existing fact `analyzeFactConflict` synthesizes for a
snapshot entry: fixed confidence 0.8, timestamped yesterday, verified. -/
def mockExistingFact (newFact : LearnedFact) (existingContent existingKey : String)
    (now : Int) : LearnedFact :=
  { id := existingKey
    content := existingContent
    category := newFact.category
    confidence := mkRat 8 10
    timestamp := now - 86400000
    source := "previous conversation"
    verified := true }

/-- `ConflictResolver.analyzeFactConflict`: the four detectors in fixed
order, first match wins. -/
def analyzeFactConflict (cid : String) (newFact : LearnedFact)
    (existingContent existingKey : String) (now : Int) : Option ConflictInfo :=
  let existingFact := mockExistingFact newFact existingContent existingKey now
  match checkContradiction cid newFact existingFact with
  | some c => some c
  | none =>
  match checkTemporalConflict cid newFact existingFact with
  | some c => some c
  | none =>
  match checkInconsistency cid newFact existingFact with
  | some c => some c
  | none => checkAmbiguity cid newFact existingFact

/-- `generateConflictId` (the conflict counter is pre-incremented). -/
def conflictIdStr (now : Int) (n : Nat) : String :=
  "conflict_" ++ toString now ++ "_" ++ toString n

/-- The inner loop of `detectConflicts` over one new fact and the
category's snapshot entries, threading the conflict counter. -/
def detectPairs (newFact : LearnedFact) :
    List (String × String) → Int → Nat → List ConflictInfo × Nat
  | [], _, counter => ([], counter)
  | (key, existingContent) :: rest, now, counter =>
    match analyzeFactConflict (conflictIdStr now (counter + 1)) newFact existingContent
        key now with
    | some conflictInfo =>
      let r := detectPairs newFact rest now (counter + 1)
      (conflictInfo :: r.1, r.2)
    | none => detectPairs newFact rest now counter

/-- The outer loop of `detectConflicts` over the new facts. -/
def detectLoop (snap : Snapshot) (now : Int) :
    List LearnedFact → Nat → List ConflictInfo × Nat
  | [], counter => ([], counter)
  | newFact :: rest, counter =>
    let categoryFacts := (alookup snap newFact.category).getD []
    let r1 := detectPairs newFact categoryFacts now counter
    let r2 := detectLoop snap now rest r1.2
    (r1.1 ++ r2.1, r2.2)

/-- `ConflictResolutionResult` of `conflict-resolver.ts`. -/
structure ConflictResolutionResult where
  conflicts : List ConflictInfo
  hasConflicts : Bool
  needsImmediateAttention : List ConflictInfo
  autoResolvable : List ConflictInfo
deriving DecidableEq

/-- Whether a conflict's suggested resolution is `update` or `merge`. -/
def autoResolvableB (c : ConflictInfo) : Bool :=
  decide (c.suggestedResolution = Resolution.update) ||
  decide (c.suggestedResolution = Resolution.merge)

/-- `ConflictResolver.detectConflicts`: compare every new fact against the
snapshot entries of its own category; conflicts with high severity or of
contradiction type need immediate attention, the remaining `update`/`merge`
ones are auto-resolvable. -/
def detectConflicts (newFacts : List LearnedFact) (existingFacts : Snapshot)
    (now : Int) (counter : Nat) : ConflictResolutionResult × Nat :=
  let r := detectLoop existingFacts now newFacts counter
  ({ conflicts := r.1
     hasConflicts := decide (0 < r.1.length)
     needsImmediateAttention := r.1.filter highPriority
     autoResolvable := r.1.filter (fun c => !highPriority c && autoResolvableB c) }, r.2)

/-! ## Fact-extraction fallback (`real-time-fact-learner.ts`) -/

/-- `FactExtractionResult` of `real-time-fact-learner.ts`. -/
structure FactExtractionResult where
  facts : List LearnedFact
  confidence : ℚ
  needsVerification : List LearnedFact
deriving DecidableEq

/-- Existence semantics of a regex alternation chain
`g1.*g2.*...*gn` (each `gi` a list of literal alternatives) over a
lowercased subject: the groups match at non-overlapping positions in
order. -/
def seqMatch : List (List (List Char)) → List Char → Bool
  | [], _ => true
  | g :: gs, s =>
    (List.range (s.length + 1)).any (fun i =>
      g.any (fun a => beginsWith a (s.drop i) && seqMatch gs (s.drop (i + a.length))))

/-- The literal groups of `/going.*(date|dinner|out).*(vahant|with him)/i`. -/
def p1groups : List (List (List Char)) :=
  [["going".data], ["date".data, "dinner".data, "out".data],
   ["vahant".data, "with him".data]]

/-- The alternatives of `/wearing.*(dress|outfit|clothes)/i`. -/
def p2alts : List (List Char) := ["dress".data, "outfit".data, "clothes".data]

/-- `match[0]` of `/wearing.*(dress|outfit|clothes)/i`: from the leftmost
viable "wearing" through the end of the last alternative occurrence
(`.*` is greedy), taken from the original-case message. -/
def p2match0 (message : String) : Option String :=
  let s := lcChars message
  match (List.range (s.length + 1)).find? (fun i =>
      beginsWith "wearing".data (s.drop i) &&
      (List.range (s.length + 1)).any (fun j =>
        decide (i + 7 ≤ j) && p2alts.any (fun a => beginsWith a (s.drop j)))) with
  | none => none
  | some i =>
    let ends := (List.range (s.length + 1)).filter (fun j =>
      decide (i + 7 ≤ j) && p2alts.any (fun a => beginsWith a (s.drop j)))
    match ends.getLast? with
    | none => none
    | some j =>
      match p2alts.find? (fun a => beginsWith a (s.drop j)) with
      | none => none
      | some a => some (String.mk ((message.data.drop i).take (j + a.length - i)))

/-- The emotion alternatives of `/feel(ing)?\s+(sad|happy|excited|nervous|angry)/i`. -/
def p3emotions : List (List Char) :=
  ["sad".data, "happy".data, "excited".data, "nervous".data, "angry".data]

/-- After zero or more further whitespace characters, one of the
alternatives begins. -/
def altAfterWs (alts : List (List Char)) : List Char → Bool
  | [] => false
  | c :: t => alts.any (fun a => beginsWith a (c :: t)) || (c.isWhitespace && altAfterWs alts t)

/-- `\s+` followed by one of the alternatives. -/
def wsThenAlt (alts : List (List Char)) : List Char → Bool
  | [] => false
  | c :: t => c.isWhitespace && altAfterWs alts t

/-- Length of the leading whitespace run. -/
def leadWs : List Char → Nat
  | [] => 0
  | c :: t => if c.isWhitespace then leadWs t + 1 else 0

/-- `match[0]` of `/feel(ing)?\s+(sad|happy|excited|nervous|angry)/i`:
leftmost "feel", greedy optional "ing", the whitespace run, and the
emotion word, taken from the original-case message. -/
def p3match0 (message : String) : Option String :=
  let s := lcChars message
  match (List.range (s.length + 1)).find? (fun i =>
      (beginsWith "feeling".data (s.drop i) && wsThenAlt p3emotions (s.drop (i + 7))) ||
      (beginsWith "feel".data (s.drop i) && wsThenAlt p3emotions (s.drop (i + 4)))) with
  | none => none
  | some i =>
    let k :=
      if beginsWith "feeling".data (s.drop i) && wsThenAlt p3emotions (s.drop (i + 7)) then
        i + 7
      else i + 4
    let r := leadWs (s.drop k)
    match p3emotions.find? (fun a => beginsWith a (s.drop (k + r))) with
    | none => none
    | some a => some (String.mk ((message.data.drop i).take (k + r + a.length - i)))

/-- `match.split(" ").pop()` of the source's emotion template. -/
def lastToken (s : String) : String := (jsSplitWords s).getLastD ""

/-- Length of the leading run of characters other than `.`, `!`, `?`
(the `[^.!?]+` capture). -/
def leadNotStop : List Char → Nat
  | [] => 0
  | c :: t => if c == '.' || c == '!' || c == '?' then 0 else leadNotStop t + 1

/-- End position of `/going\s+to\s+([^.!?]+)/i` matched at index `i` of a
lowercased subject, with greedy whitespace runs and the backtracking step
that lets `[^.!?]+` consume the last whitespace character when nothing
else follows. -/
def p4endAt (s : List Char) (i : Nat) : Option Nat :=
  if beginsWith "going".data (s.drop i) then
    let r1 := leadWs (s.drop (i + 5))
    if r1 = 0 then none
    else
      let q := i + 5 + r1
      if beginsWith "to".data (s.drop q) then
        let r2 := leadWs (s.drop (q + 2))
        if r2 = 0 then none
        else
          let rest := q + 2 + r2
          let t := leadNotStop (s.drop rest)
          if 1 ≤ t then some (rest + t)
          else if 2 ≤ r2 then some rest
          else none
      else none
  else none

/-- `match[0]` of `/going\s+to\s+([^.!?]+)/i`, from the original-case
message. -/
def p4match0 (message : String) : Option String :=
  let s := lcChars message
  (List.range (s.length + 1)).findSome? (fun i =>
    (p4endAt s i).map (fun e => String.mk ((message.data.drop i).take (e - i))))

/-- `String.replace` with a string pattern: drop the first occurrence. -/
def replFirst (pat : List Char) : List Char → List Char
  | [] => []
  | c :: t => if beginsWith pat (c :: t) then List.drop pat.length (c :: t) else c :: replFirst pat t

/-- `generateFactId` (the fact counter is pre-incremented). -/
def factIdStr (now : Int) (n : Nat) : String :=
  "fact_" ++ toString now ++ "_" ++ toString n

/-- One `patterns.forEach` step of `fallbackFactExtraction`: append a
fixed-confidence fact for a matched template. -/
def fallbackStep (message : String) (now : Int) (acc : List LearnedFact × Nat) :
    Option (String × Category) → List LearnedFact × Nat
  | none => acc
  | some (content, category) =>
    (acc.1 ++
      [{ id := factIdStr now (acc.2 + 1)
         content := content
         category := category
         confidence := mkRat 7 10
         timestamp := now
         source := message
         verified := true }], acc.2 + 1)

/-- `RealTimeFactLearner.fallbackFactExtraction`: the four regex templates
in order, each match contributing one fact at confidence 0.7. -/
def fallbackFactExtraction (message : String) (now : Int) (factCounter : Nat) :
    FactExtractionResult × Nat :=
  let s := lcChars message
  let m1 :=
    if seqMatch p1groups s then some ("Plans to go on date with Vahant", Category.plans)
    else none
  let m2 := (p2match0 message).map (fun m0 => ("Outfit choice: " ++ m0, Category.preferences))
  let m3 := (p3match0 message).map (fun m0 =>
    ("Current emotion: " ++ lastToken m0, Category.emotions))
  let m4 := (p4match0 message).map (fun m0 =>
    ("Plans to visit: " ++ String.mk (replFirst "going to ".data m0.data), Category.plans))
  let fc := [m1, m2, m3, m4].foldl (fallbackStep message now) ([], factCounter)
  ({ facts := fc.1
     confidence := if 0 < fc.1.length then mkRat 7 10 else 0
     needsVerification := [] }, fc.2)

/-! ## Derived predicates and sample values -/

/-- Keys of the memory map are pairwise distinct (as for a JS `Map`; every
reachable bank state satisfies this). -/
def keysNodup (b : MemoryBank) : Prop := (b.memory.map Prod.fst).Nodup

instance (b : MemoryBank) : Decidable (keysNodup b) := by
  unfold keysNodup; infer_instance

/-- The index-consistency property of claim C3: every id in any index
bucket has a memory entry, and every entry's id sits in the bucket of its
category and of its timestamp's day. -/
def IndexConsistent (b : MemoryBank) : Prop :=
  (∀ cs ∈ b.categoryIndex, ∀ id ∈ cs.2, (alookup b.memory id).isSome = true) ∧
  (∀ ds ∈ b.timelineIndex, ∀ id ∈ ds.2, (alookup b.memory id).isSome = true) ∧
  (∀ p ∈ b.memory,
    p.1 ∈ (alookup b.categoryIndex p.2.fact.category).getD ∅ ∧
    p.1 ∈ (alookup b.timelineIndex (dateKey p.2.fact.timestamp)).getD ∅)

instance (b : MemoryBank) : Decidable (IndexConsistent b) := by
  unfold IndexConsistent; infer_instance

/-- The facts a memory-bank call stores (the entries it can write). -/
def opFacts : MBOp → List LearnedFact
  | MBOp.store fact _ _ => [fact]
  | MBOp.updateConf _ _ _ _ => []
  | MBOp.resolve ci choice now =>
    match choice with
    | UserChoice.new => [ci.newFact]
    | UserChoice.existing => [{ ci.newFact with confidence := mkRat 2 10 }]
    | UserChoice.merge => [mergedFactOf ci now]
  | MBOp.importK knowledge now =>
    knowledge.flatMap (fun ck => ck.2.map (fun kv => importedFact kv.1 kv.2 ck.1 now))
  | MBOp.clean _ _ _ => []

/-- All facts stored across a call sequence agree, per id, on category and
calendar day (no re-store of an id under a different category or day). -/
def storedAgree (ops : List MBOp) : Prop :=
  ∀ f ∈ ops.flatMap opFacts, ∀ g ∈ ops.flatMap opFacts,
    f.id = g.id → f.category = g.category ∧ dateKey f.timestamp = dateKey g.timestamp

instance (ops : List MBOp) : Decidable (storedAgree ops) := by
  unfold storedAgree; infer_instance

/-- The inductive invariant behind C3: distinct map keys, entries that
carry their own key and a fact from `F`, sound buckets, and fully indexed
entries. -/
def BankInv (F : List LearnedFact) (b : MemoryBank) : Prop :=
  (b.memory.map Prod.fst).Nodup ∧
  (b.categoryIndex.map Prod.fst).Nodup ∧
  (b.timelineIndex.map Prod.fst).Nodup ∧
  (∀ p ∈ b.memory, p.2.fact.id = p.1 ∧ p.2.fact ∈ F) ∧
  (∀ c id, id ∈ (alookup b.categoryIndex c).getD ∅ →
    ∃ e, alookup b.memory id = some e ∧ e.fact.category = c) ∧
  (∀ d id, id ∈ (alookup b.timelineIndex d).getD ∅ →
    ∃ e, alookup b.memory id = some e ∧ dateKey e.fact.timestamp = d) ∧
  (∀ p ∈ b.memory,
    p.1 ∈ (alookup b.categoryIndex p.2.fact.category).getD ∅ ∧
    p.1 ∈ (alookup b.timelineIndex (dateKey p.2.fact.timestamp)).getD ∅)

/-- The agreement hypothesis of the C3 induction over a fact pool. -/
def factsAgree (F : List LearnedFact) : Prop :=
  ∀ f ∈ F, ∀ g ∈ F,
    f.id = g.id → f.category = g.category ∧ dateKey f.timestamp = dateKey g.timestamp

/-- The `(category, id, content)` triple of one memory pair. -/
def projTriple (p : String × MemoryEntry) : Category × String × String :=
  (p.2.fact.category, p.1, p.2.fact.content)

/-- The `(category, id, content)` triples of a bank, in memory order. -/
def bankTriples (b : MemoryBank) : List (Category × String × String) :=
  b.memory.map projTriple

/-- The `(category, id, content)` triples of a snapshot. -/
def snapTriples (snap : Snapshot) : List (Category × String × String) :=
  snap.flatMap (fun ck => ck.2.map (fun kv => (ck.1, kv.1, kv.2)))

/-- A fact with an out-of-range confidence, as `storeFact` accepts. -/
def badFact : LearnedFact :=
  { id := "x", content := "c", category := Category.personal,
    confidence := 2, timestamp := 0, source := "s", verified := false }

/-- A low-confidence old fact under id "a", category `personal`. -/
def dupA1 : LearnedFact :=
  { id := "a", content := "c1", category := Category.personal,
    confidence := mkRat 1 10, timestamp := 0, source := "s", verified := false }

/-- A low-confidence old fact under the same id "a", category `plans`. -/
def dupA2 : LearnedFact :=
  { id := "a", content := "c2", category := Category.plans,
    confidence := mkRat 1 10, timestamp := 0, source := "s", verified := false }

/-- Store id "a" twice under two categories, then clean it up. -/
def c3ops : List MBOp :=
  [MBOp.store dupA1 [] 0, MBOp.store dupA2 [] 0,
   MBOp.clean (mkRat 3 10) 30 (30 * 86400000 + 1)]

/-- A store/update/import sequence with in-range confidences. -/
def c2ops : List MBOp :=
  [MBOp.store dupA1 [] 0,
   MBOp.updateConf "a" 7 true 1,
   MBOp.importK [(Category.plans, [("p1", "loves picnics")])] 2]

/-- The new fact of end-to-end scenario 2 (second turn). -/
def hateFact : LearnedFact :=
  { id := "new1", content := "I hate spicy food", category := Category.preferences,
    confidence := mkRat 9 10, timestamp := 0, source := "I hate spicy food",
    verified := true }

/-- The exported knowledge of scenario 2's first turn. -/
def spicySnap : Snapshot := [(Category.preferences, [("old1", "I love spicy food")])]

/-- The message of end-to-end scenario 1. -/
def samMsg : String := "I'm going on a date with Sam tomorrow"

/-- A bank holding the two facts of a sample conflict, for witnesses. -/
def c5bank : MemoryBank :=
  storeFact (storeFact emptyBank sampleConflict.existingFact [] 0)
    sampleConflict.newFact [] 0

/-- An old, never-accessed, low-confidence entry for the cleanup witness. -/
def staleFact : LearnedFact :=
  { id := "stale", content := "old news", category := Category.concerns,
    confidence := mkRat 1 10, timestamp := 0, source := "s", verified := false }

/-- The memory entry `storeFact` writes for `staleFact` at time 0. -/
def staleEntry : MemoryEntry :=
  { fact := staleFact, lastAccessed := 0, accessCount := 0, verified := false,
    confidence := mkRat 1 10, relatedFacts := [] }

/-- A bank holding only `staleFact`. -/
def staleBank : MemoryBank := storeFact emptyBank staleFact [] 0

/-- A sample session under id "s1" holding one user message. -/
def sampleMsg : ChatMessage :=
  { id := "m1", text := "I love spicy food", sender := "user", timestamp := 0 }

/-- A session map holding one session "s1" with `sampleMsg`. -/
def sampleSessions : SessionMap := fun sid =>
  if sid = "s1" then
    some
      { sessionId := "s1"
        messages := [sampleMsg]
        lastActivity := 0
        context := { currentTopics := [], emotionalState := "neutral", ongoingConcerns := [] } }
  else none

/-! ## Theorems -/

/-- The head of a filtered list is the first element satisfying the predicate. -/
theorem filter_head_eq_find (p : α → Bool) (l : List α) :
    (l.filter p).head? = l.find? p := by
  induction l with
  | nil => rfl
  | cons a t ih =>
    by_cases h : p a = true
    · simp [List.filter_cons, h, List.find?_cons, List.head?]
    · simp only [Bool.not_eq_true] at h
      simp [List.filter_cons, h, List.find?_cons, ih]

/-- C9: for every generated reply and non-empty conflict list, the
response engine appends at most one clarification question: the first
high-severity-or-contradiction conflict's question with the "Wait bestie"
transition, else the first medium-severity conflict's question with the
"By the way" transition, else the reply is unchanged. -/
theorem c9_clarification_tiers (response : String) (conflicts : List ConflictInfo)
    (hne : conflicts ≠ []) :
    (∀ c, conflicts.find? highPriority = some c →
      integrateConflictClarification response conflicts =
        response ++ "\n\nWait bestie, " ++ c.clarificationQuestion) ∧
    (conflicts.find? highPriority = none →
      ∀ c, conflicts.find? mediumSeverity = some c →
        integrateConflictClarification response conflicts =
          response ++ "\n\nBy the way, " ++ c.clarificationQuestion) ∧
    (conflicts.find? highPriority = none →
      conflicts.find? mediumSeverity = none →
      integrateConflictClarification response conflicts = response) := by
  refine ⟨?_, ?_, ?_⟩
  · intro c hc
    rw [← filter_head_eq_find] at hc
    cases hfl : conflicts.filter highPriority with
    | nil => rw [hfl] at hc; exact absurd hc (by simp)
    | cons a t =>
      rw [hfl] at hc
      simp only [List.head?_cons, Option.some.injEq] at hc
      subst hc
      simp only [integrateConflictClarification, hfl]
  · intro hnone c hc
    have hfl : conflicts.filter highPriority = [] := by
      have h := filter_head_eq_find highPriority conflicts
      rw [hnone] at h
      cases hflc : conflicts.filter highPriority with
      | nil => rfl
      | cons a t => rw [hflc] at h; exact absurd h (by simp)
    rw [← filter_head_eq_find] at hc
    cases hml : conflicts.filter mediumSeverity with
    | nil => rw [hml] at hc; exact absurd hc (by simp)
    | cons a t =>
      rw [hml] at hc
      simp only [List.head?_cons, Option.some.injEq] at hc
      subst hc
      simp only [integrateConflictClarification, hfl, hml]
  · intro h1 h2
    have hfl : conflicts.filter highPriority = [] := by
      have h := filter_head_eq_find highPriority conflicts
      rw [h1] at h
      cases hflc : conflicts.filter highPriority with
      | nil => rfl
      | cons a t => rw [hflc] at h; exact absurd h (by simp)
    have hml : conflicts.filter mediumSeverity = [] := by
      have h := filter_head_eq_find mediumSeverity conflicts
      rw [h2] at h
      cases hmlc : conflicts.filter mediumSeverity with
      | nil => rfl
      | cons a t => rw [hmlc] at h; exact absurd h (by simp)
    simp only [integrateConflictClarification, hfl, hml]

/-- Witness for C9: a singleton medium-severity conflict list gets exactly
the "By the way" transition appended. -/
theorem c9_clarification_tiers_witness :
    integrateConflictClarification "ok" [sampleConflict] =
      "ok" ++ "\n\nBy the way, " ++ "which one?" := by
  have h := c9_clarification_tiers "ok" [sampleConflict] (by decide)
  exact h.2.1 (by decide) sampleConflict (by decide)

/-! ### Association-list lemmas -/

theorem alookup_append [DecidableEq α] (l1 l2 : List (α × β)) (k : α) :
    alookup (l1 ++ l2) k =
      match alookup l1 k with
      | some v => some v
      | none => alookup l2 k := by
  induction l1 with
  | nil => simp [alookup]
  | cons p t ih =>
    by_cases h : p.1 = k
    · simp [alookup, h]
    · simp [alookup, h, ih]

theorem alookup_none_of_any_false [DecidableEq α] {l : List (α × β)} {k : α}
    (h : l.any (fun p => decide (p.1 = k)) = false) : alookup l k = none := by
  induction l with
  | nil => rfl
  | cons p t ih =>
    simp only [List.any_cons, Bool.or_eq_false_iff, decide_eq_false_iff_not] at h
    simp [alookup, h.1, ih h.2]

theorem any_true_of_alookup_some [DecidableEq α] {l : List (α × β)} {k : α} {v : β}
    (h : alookup l k = some v) : l.any (fun p => decide (p.1 = k)) = true := by
  induction l with
  | nil => simp [alookup] at h
  | cons p t ih =>
    by_cases hp : p.1 = k
    · simp [hp]
    · simp only [alookup, hp, if_false] at h
      simp [ih h]

theorem alookup_map_subst_self [DecidableEq α] (l : List (α × β)) (k : α) (v : β) :
    alookup (l.map (fun p => if p.1 = k then (k, v) else p)) k =
      if l.any (fun p => decide (p.1 = k)) then some v else none := by
  induction l with
  | nil => rfl
  | cons p t ih =>
    by_cases hp : p.1 = k
    · simp [alookup, hp]
    · have hd : decide (p.1 = k) = false := decide_eq_false hp
      rw [List.map_cons, if_neg hp, List.any_cons, hd, Bool.false_or, alookup, if_neg hp, ih]

theorem alookup_map_subst_ne [DecidableEq α] (l : List (α × β)) (k k' : α) (v : β)
    (hne : k' ≠ k) :
    alookup (l.map (fun p => if p.1 = k then (k, v) else p)) k' = alookup l k' := by
  induction l with
  | nil => rfl
  | cons p t ih =>
    by_cases hp : p.1 = k
    · have : ¬ (k = k') := fun h => hne h.symm
      simp [alookup, hp, this, ih]
    · simp only [List.map_cons, if_neg hp]
      by_cases hk' : p.1 = k'
      · simp [alookup, hk']
      · simp [alookup, hk', ih]

theorem alookup_aset_self [DecidableEq α] (l : List (α × β)) (k : α) (v : β) :
    alookup (aset l k v) k = some v := by
  unfold aset
  by_cases h : l.any (fun p => decide (p.1 = k)) = true
  · rw [if_pos h, alookup_map_subst_self, if_pos h]
  · rw [if_neg h, alookup_append]
    rw [alookup_none_of_any_false (Bool.eq_false_iff.mpr h)]
    simp [alookup]

theorem alookup_aset_ne [DecidableEq α] (l : List (α × β)) (k k' : α) (v : β)
    (hne : k' ≠ k) : alookup (aset l k v) k' = alookup l k' := by
  unfold aset
  by_cases h : l.any (fun p => decide (p.1 = k)) = true
  · rw [if_pos h, alookup_map_subst_ne _ _ _ _ hne]
  · rw [if_neg h, alookup_append]
    have hkk : ¬ (k = k') := fun hh => hne hh.symm
    have h1 : alookup [(k, v)] k' = none := by simp [alookup, hkk]
    rw [h1]
    cases alookup l k' <;> rfl

theorem mem_aset [DecidableEq α] {l : List (α × β)} {k : α} {v : β} {p : α × β}
    (h : p ∈ aset l k v) : p ∈ l ∨ p = (k, v) := by
  unfold aset at h
  by_cases ha : l.any (fun p => decide (p.1 = k)) = true
  · rw [if_pos ha] at h
    obtain ⟨q, hq, hqe⟩ := List.mem_map.mp h
    by_cases hqk : q.1 = k
    · right; rw [← hqe]; simp [hqk]
    · left; rw [← hqe]; simpa [hqk] using hq
  · rw [if_neg ha] at h
    rcases List.mem_append.mp h with h1 | h1
    · exact Or.inl h1
    · right; simpa using h1

theorem aset_keys_any [DecidableEq α] (l : List (α × β)) (k : α) (v : β)
    (h : l.any (fun p => decide (p.1 = k)) = true) :
    (aset l k v).map Prod.fst = l.map Prod.fst := by
  unfold aset
  rw [if_pos h, List.map_map]
  refine List.map_congr_left (fun p _ => ?_)
  by_cases hp : p.1 = k <;> simp [hp]

theorem aset_keys_new [DecidableEq α] (l : List (α × β)) (k : α) (v : β)
    (h : ¬ l.any (fun p => decide (p.1 = k)) = true) :
    (aset l k v).map Prod.fst = l.map Prod.fst ++ [k] := by
  unfold aset
  rw [if_neg h]
  simp

theorem not_mem_keys_of_any_false [DecidableEq α] {l : List (α × β)} {k : α}
    (h : l.any (fun p => decide (p.1 = k)) = false) : k ∉ l.map Prod.fst := by
  intro hk
  obtain ⟨p, hp, hpe⟩ := List.mem_map.mp hk
  simp only [List.any_eq_false, decide_eq_true_eq] at h
  exact h p hp hpe

theorem nodup_aset [DecidableEq α] {l : List (α × β)} (k : α) (v : β)
    (h : (l.map Prod.fst).Nodup) : ((aset l k v).map Prod.fst).Nodup := by
  by_cases ha : l.any (fun p => decide (p.1 = k)) = true
  · rw [aset_keys_any _ _ _ ha]; exact h
  · rw [aset_keys_new _ _ _ ha]
    have hk := not_mem_keys_of_any_false (Bool.eq_false_iff.mpr ha)
    refine List.Nodup.append h (List.nodup_singleton k) ?_
    intro a ha' hb
    rw [List.mem_singleton] at hb
    exact hk (hb ▸ ha')

theorem alookup_mem [DecidableEq α] {l : List (α × β)} {k : α} {v : β}
    (h : alookup l k = some v) : (k, v) ∈ l := by
  induction l with
  | nil => simp [alookup] at h
  | cons p t ih =>
    by_cases hp : p.1 = k
    · rw [show alookup (p :: t) k = some p.2 from by simp [alookup, hp]] at h
      injection h with h2
      have hkv : (k, v) = p := by rw [← hp, ← h2]
      rw [hkv]
      exact List.mem_cons_self _ _
    · simp only [alookup, hp, if_false] at h
      exact List.mem_cons_of_mem _ (ih h)

theorem alookup_of_mem_nodup [DecidableEq α] {l : List (α × β)} {k : α} {v : β}
    (hmem : (k, v) ∈ l) (hnd : (l.map Prod.fst).Nodup) : alookup l k = some v := by
  induction l with
  | nil => simp at hmem
  | cons p t ih =>
    simp only [List.map_cons, List.nodup_cons] at hnd
    rcases List.mem_cons.mp hmem with h1 | h1
    · rw [← h1]; simp [alookup]
    · have hk : k ∈ t.map Prod.fst := List.mem_map.mpr ⟨(k, v), h1, rfl⟩
      have hp : p.1 ≠ k := fun he => hnd.1 (by rw [he]; exact hk)
      simp [alookup, hp, ih h1 hnd.2]

theorem alookup_aerase_self [DecidableEq α] (l : List (α × β)) (k : α) :
    alookup (aerase l k) k = none := by
  induction l with
  | nil => rfl
  | cons p t ih =>
    by_cases hp : p.1 = k
    · simpa [aerase, hp] using ih
    · simpa [aerase, List.filter_cons, hp, alookup] using ih

theorem alookup_aerase_ne [DecidableEq α] (l : List (α × β)) (k k' : α) (hne : k' ≠ k) :
    alookup (aerase l k) k' = alookup l k' := by
  induction l with
  | nil => rfl
  | cons p t ih =>
    have ih' : alookup (List.filter (fun q => !decide (q.1 = k)) t) k' = alookup t k' := by
      simpa [aerase] using ih
    by_cases hp : p.1 = k
    · have hp' : ¬ p.1 = k' := fun he => hne (by rw [← he, hp])
      have hkk' : ¬ (k = k') := fun h => hne h.symm
      simp [aerase, List.filter_cons, hp, alookup, hp', hkk', ih']
    · simp [aerase, List.filter_cons, hp, alookup, ih']

theorem mem_aerase [DecidableEq α] {l : List (α × β)} {k : α} {p : α × β} :
    p ∈ aerase l k ↔ p ∈ l ∧ p.1 ≠ k := by
  unfold aerase
  simp

theorem nodup_aerase [DecidableEq α] {l : List (α × β)} (k : α)
    (h : (l.map Prod.fst).Nodup) : ((aerase l k).map Prod.fst).Nodup := by
  unfold aerase
  exact ((List.filter_sublist l).map Prod.fst).nodup h

theorem any_false_of_alookup_none [DecidableEq α] {l : List (α × β)} {k : α}
    (h : alookup l k = none) : l.any (fun p => decide (p.1 = k)) = false := by
  induction l with
  | nil => rfl
  | cons p t ih =>
    by_cases hp : p.1 = k
    · simp [alookup, hp] at h
    · simp only [alookup, hp, if_false] at h
      simp [hp, ih h]

theorem aset_length_new [DecidableEq α] (l : List (α × β)) (k : α) (v : β)
    (h : alookup l k = none) : (aset l k v).length = l.length + 1 := by
  unfold aset
  rw [any_false_of_alookup_none h]
  simp

/-! ### Index-bucket lemmas -/

theorem mem_bucketAdd [DecidableEq α] (idx : List (α × Finset String)) (k k' : α)
    (id id' : String) :
    id' ∈ (alookup (bucketAdd idx k id) k').getD ∅ ↔
      (k' = k ∧ id' = id) ∨ id' ∈ (alookup idx k').getD ∅ := by
  unfold bucketAdd
  cases hs : alookup idx k with
  | none =>
    rw [alookup_append]
    by_cases hk : k' = k
    · subst hk
      rw [hs]
      simp [alookup]
    · have hkk : ¬ (k = k') := fun h => hk h.symm
      have h1 : alookup [(k, ({id} : Finset String))] k' = none := by
        simp [alookup, hkk]
      rw [h1]
      cases hl : alookup idx k' with
      | none => simp [hk]
      | some s => simp [hk]
  | some s =>
    by_cases hk : k' = k
    · subst hk
      rw [alookup_aset_self, hs]
      simp
    · rw [alookup_aset_ne _ _ _ _ hk]
      simp [hk]

theorem mem_bucketRemove [DecidableEq α] (idx : List (α × Finset String)) (k k' : α)
    (id id' : String) :
    id' ∈ (alookup (bucketRemove idx k id) k').getD ∅ ↔
      id' ∈ (alookup idx k').getD ∅ ∧ ¬ (k' = k ∧ id' = id) := by
  unfold bucketRemove
  cases hs : alookup idx k with
  | none =>
    by_cases hk : k' = k
    · subst hk
      rw [hs]
      simp
    · simp [hk]
  | some s =>
    dsimp only
    by_cases he : s.erase id = ∅
    · rw [if_pos he]
      by_cases hk : k' = k
      · subst hk
        rw [alookup_aerase_self, hs]
        constructor
        · intro hc
          simp at hc
        · rintro ⟨h1, h2⟩
          have hne2 : id' ≠ id := fun h => h2 ⟨rfl, h⟩
          have hmem : id' ∈ s.erase id := Finset.mem_erase.mpr ⟨hne2, by simpa using h1⟩
          rw [he] at hmem
          exact absurd hmem (Finset.not_mem_empty _)
      · rw [alookup_aerase_ne _ _ _ hk]
        simp [hk]
    · rw [if_neg he]
      by_cases hk : k' = k
      · subst hk
        rw [alookup_aset_self, hs]
        constructor
        · intro hc
          have hc' : id' ∈ s.erase id := by simpa using hc
          rw [Finset.mem_erase] at hc'
          exact ⟨by simpa using hc'.2, fun hcc => hc'.1 hcc.2⟩
        · rintro ⟨h1, h2⟩
          have hne2 : id' ≠ id := fun h => h2 ⟨rfl, h⟩
          simpa using Finset.mem_erase.mpr ⟨hne2, by simpa using h1⟩
      · rw [alookup_aset_ne _ _ _ _ hk]
        simp [hk]

theorem nodup_bucketAdd [DecidableEq α] {idx : List (α × Finset String)} (k : α)
    (id : String) (h : (idx.map Prod.fst).Nodup) :
    ((bucketAdd idx k id).map Prod.fst).Nodup := by
  unfold bucketAdd
  cases hs : alookup idx k with
  | none =>
    rw [List.map_append]
    refine List.Nodup.append h (by simp) ?_
    intro a ha hb
    simp only [List.map_cons, List.map_nil, List.mem_singleton] at hb
    subst hb
    exact not_mem_keys_of_any_false (any_false_of_alookup_none hs) ha
  | some s => exact nodup_aset _ _ h

theorem nodup_bucketRemove [DecidableEq α] {idx : List (α × Finset String)} (k : α)
    (id : String) (h : (idx.map Prod.fst).Nodup) :
    ((bucketRemove idx k id).map Prod.fst).Nodup := by
  unfold bucketRemove
  cases alookup idx k with
  | none => exact h
  | some s =>
    dsimp only
    by_cases he : s.erase id = ∅
    · rw [if_pos he]; exact nodup_aerase _ h
    · rw [if_neg he]; exact nodup_aset _ _ h

/-! ### C2: confidence range invariant -/

theorem storeFact_memory (b : MemoryBank) (fact : LearnedFact) (related : List String)
    (now : Int) :
    (storeFact b fact related now).memory =
      aset b.memory fact.id
        { fact := fact, lastAccessed := now, accessCount := 0,
          verified := fact.verified, confidence := fact.confidence,
          relatedFacts := related } := rfl

theorem storeFact_categoryIndex (b : MemoryBank) (fact : LearnedFact)
    (related : List String) (now : Int) :
    (storeFact b fact related now).categoryIndex =
      bucketAdd b.categoryIndex fact.category fact.id := rfl

theorem storeFact_timelineIndex (b : MemoryBank) (fact : LearnedFact)
    (related : List String) (now : Int) :
    (storeFact b fact related now).timelineIndex =
      bucketAdd b.timelineIndex (dateKey fact.timestamp) fact.id := rfl

theorem confOK_storeFact {b : MemoryBank} {fact : LearnedFact} (related : List String)
    (now : Int) (hb : ConfOK b) (hf : 0 ≤ fact.confidence ∧ fact.confidence ≤ 1) :
    ConfOK (storeFact b fact related now) := by
  intro p hp
  rw [storeFact_memory] at hp
  rcases mem_aset hp with h | h
  · exact hb p h
  · rw [h]
    exact hf

theorem clamp_range (c : ℚ) : 0 ≤ max 0 (min 1 c) ∧ max 0 (min 1 c) ≤ 1 :=
  ⟨le_max_left 0 _, max_le (by norm_num) (min_le_left 1 c)⟩

theorem confOK_updateFactConfidence {b : MemoryBank} (factId : String) (c : ℚ)
    (v : Bool) (now : Int) (hb : ConfOK b) :
    ConfOK (updateFactConfidence b factId c v now) := by
  unfold updateFactConfidence
  cases h : alookup b.memory factId with
  | none => exact hb
  | some entry =>
    intro p hp
    rcases mem_aset hp with h1 | h1
    · exact hb p h1
    · rw [h1]
      exact clamp_range c

theorem confOK_importInner (c : Category) (now : Int) (kvs : List (String × String)) :
    ∀ (b : MemoryBank), ConfOK b →
      ConfOK (kvs.foldl
        (fun b2 kv => storeFact b2 (importedFact kv.1 kv.2 c now) [] now) b) := by
  induction kvs with
  | nil => intro b hb; exact hb
  | cons kv rest ih =>
    intro b hb
    rw [List.foldl_cons]
    have h8 : (0 : ℚ) ≤ mkRat 8 10 ∧ (mkRat 8 10 : ℚ) ≤ 1 := by decide
    exact ih _ (confOK_storeFact [] now hb h8)

theorem confOK_importKnowledge {b : MemoryBank} (knowledge : Snapshot) (now : Int)
    (hb : ConfOK b) : ConfOK (importKnowledge b knowledge now) := by
  unfold importKnowledge
  induction knowledge generalizing b with
  | nil => exact hb
  | cons ck rest ih =>
    rw [List.foldl_cons]
    exact ih (confOK_importInner ck.1 now ck.2 b hb)

theorem confOK_applyOp {b : MemoryBank} {op : MBOp} (hb : ConfOK b) (hop : c2OpOK op) :
    ConfOK (applyOp b op) := by
  cases op with
  | store fact related now => exact confOK_storeFact related now hb hop
  | updateConf factId c v now => exact confOK_updateFactConfidence factId c v now hb
  | resolve ci choice now =>
    cases choice with
    | new =>
      exact confOK_storeFact _ now
        (confOK_updateFactConfidence _ _ _ now hb) hop
    | existing =>
      refine confOK_storeFact _ now
        (confOK_updateFactConfidence _ _ _ now hb) ?_
      exact (by decide : (0 : ℚ) ≤ mkRat 2 10 ∧ (mkRat 2 10 : ℚ) ≤ 1)
    | merge =>
      obtain ⟨hn, he⟩ := hop
      refine confOK_storeFact _ now hb ?_
      show 0 ≤ (ci.existingFact.confidence + ci.newFact.confidence) / 2 ∧
        (ci.existingFact.confidence + ci.newFact.confidence) / 2 ≤ 1
      constructor
      · linarith [hn.1, he.1]
      · linarith [hn.2, he.2]
  | importK knowledge now => exact confOK_importKnowledge knowledge now hb
  | clean minC maxAge now => exact hop.elim

/-- C2 counterexample: the claim fails as stated, because `storeFact`
copies the input confidence without clamping; storing a fact with
confidence 2 leaves an entry whose confidence is outside [0,1]. -/
theorem c2_counterexample : ¬ ConfOK (runOps [MBOp.store badFact [] 0]) := by decide

/-- C2 (amended): for every call sequence made of storeFact,
updateFactConfidence, resolveConflict and importKnowledge in which every
storeFact input confidence — and, for resolveConflict with choices `new`
and `merge`, the conflict's fact confidences — lies in [0,1], every stored
entry's confidence lies in [0,1]; updateFactConfidence, importKnowledge
and resolveConflict with choice `existing` need no restriction. -/
theorem c2_confidence_invariant (ops : List MBOp) (h : ∀ op ∈ ops, c2OpOK op) :
    ConfOK (runOps ops) := by
  unfold runOps
  have hgen : ∀ (l : List MBOp) (b : MemoryBank), ConfOK b → (∀ op ∈ l, c2OpOK op) →
      ConfOK (l.foldl applyOp b) := by
    intro l
    induction l with
    | nil => intro b hb _; exact hb
    | cons op rest ih =>
      intro b hb hops
      rw [List.foldl_cons]
      exact ih _ (confOK_applyOp hb (hops op (List.mem_cons_self _ _)))
        (fun o ho => hops o (List.mem_cons_of_mem _ ho))
  exact hgen ops emptyBank (by intro p hp; simp [emptyBank] at hp) h

/-- Witness for C2: a store/update/import sequence with in-range inputs
keeps every stored confidence inside [0,1]. -/
theorem c2_confidence_invariant_witness :
    (∀ op ∈ c2ops, c2OpOK op) ∧ ConfOK (runOps c2ops) :=
  ⟨by decide, c2_confidence_invariant c2ops (by decide)⟩

/-! ### C6: cleanup deletes exactly the stale entries -/

theorem deleteFact_lookup (b : MemoryBank) (j id : String) :
    alookup (deleteFact b j).memory id = if id = j then none else alookup b.memory id := by
  unfold deleteFact
  cases h : alookup b.memory j with
  | none =>
    by_cases hij : id = j
    · subst hij
      rw [if_pos rfl]
      exact h
    · rw [if_neg hij]
  | some entry =>
    by_cases hij : id = j
    · subst hij
      rw [if_pos rfl]
      exact alookup_aerase_self _ _
    · rw [if_neg hij]
      exact alookup_aerase_ne _ _ _ hij

theorem foldl_deleteFact_lookup (L : List String) : ∀ (b : MemoryBank) (id : String),
    alookup (L.foldl deleteFact b).memory id =
      if id ∈ L then none else alookup b.memory id := by
  induction L with
  | nil => intro b id; simp
  | cons j t ih =>
    intro b id
    rw [List.foldl_cons, ih]
    by_cases hid : id ∈ t
    · simp [hid]
    · rw [if_neg hid, deleteFact_lookup]
      by_cases hij : id = j
      · simp [hij]
      · simp [List.mem_cons, hij, hid]

theorem cleanup_lookup (b : MemoryBank) (minC : ℚ) (maxAge now : Int) (id : String)
    (e : MemoryEntry) (hnd : keysNodup b) (h : alookup b.memory id = some e) :
    alookup (cleanup b minC maxAge now).memory id =
      if cleanupPred minC (now - maxAge * 24 * 60 * 60 * 1000) e then none else some e := by
  unfold cleanup
  rw [foldl_deleteFact_lookup]
  have hmem : id ∈ (b.memory.filter
      (fun p => decide (cleanupPred minC (now - maxAge * 24 * 60 * 60 * 1000) p.2))).map
        Prod.fst ↔
      cleanupPred minC (now - maxAge * 24 * 60 * 60 * 1000) e := by
    constructor
    · intro hm
      obtain ⟨p, hp, hpe⟩ := List.mem_map.mp hm
      rw [List.mem_filter] at hp
      have hpd : cleanupPred minC (now - maxAge * 24 * 60 * 60 * 1000) p.2 :=
        of_decide_eq_true hp.2
      have hl : alookup b.memory p.1 = some p.2 := by
        have : (p.1, p.2) ∈ b.memory := by simpa using hp.1
        exact alookup_of_mem_nodup this hnd
      rw [hpe, h] at hl
      injection hl with hl2
      rw [hl2]
      exact hpd
    · intro hpd
      refine List.mem_map.mpr ⟨(id, e), ?_, rfl⟩
      rw [List.mem_filter]
      exact ⟨alookup_mem h, decide_eq_true hpd⟩
  by_cases hpd : cleanupPred minC (now - maxAge * 24 * 60 * 60 * 1000) e
  · rw [if_pos (hmem.mpr hpd), if_pos hpd]
  · rw [if_neg (fun hc => hpd (hmem.mp hc)), if_neg hpd, h]

/-- C6: for every bank state with distinct keys, `cleanup` removes a
stored entry exactly when its confidence is strictly below the floor, its
timestamp is older than the cutoff and it was never accessed; in
particular an entry with a positive access count survives with its entry
intact, regardless of age and confidence. -/
theorem c6_cleanup_iff (b : MemoryBank) (minC : ℚ) (maxAge now : Int) (id : String)
    (e : MemoryEntry) (hnd : keysNodup b) (h : alookup b.memory id = some e) :
    (alookup (cleanup b minC maxAge now).memory id = none ↔
      (e.confidence < minC ∧ e.fact.timestamp < now - maxAge * 24 * 60 * 60 * 1000 ∧
        e.accessCount = 0)) ∧
    (0 < e.accessCount → alookup (cleanup b minC maxAge now).memory id = some e) := by
  rw [cleanup_lookup b minC maxAge now id e hnd h]
  constructor
  · by_cases hpd : cleanupPred minC (now - maxAge * 24 * 60 * 60 * 1000) e
    · rw [if_pos hpd]
      exact ⟨fun _ => hpd, fun _ => rfl⟩
    · rw [if_neg hpd]
      exact ⟨fun hc => Option.noConfusion hc, fun hc => absurd hc hpd⟩
  · intro hac
    have hpd : ¬ cleanupPred minC (now - maxAge * 24 * 60 * 60 * 1000) e :=
      fun hc => by rw [hc.2.2] at hac; exact lt_irrefl 0 hac
    rw [if_neg hpd]

/-- Witness for C6: a never-accessed, low-confidence, 30-day-old fact is
deleted by `cleanup(0.3, 30)`. -/
theorem c6_cleanup_iff_witness :
    keysNodup staleBank ∧ alookup staleBank.memory "stale" = some staleEntry ∧
      alookup (cleanup staleBank (mkRat 3 10) 30 (30 * 86400000 + 1)).memory "stale" =
        none := by
  have h1 : keysNodup staleBank := by decide
  have h2 : alookup staleBank.memory "stale" = some staleEntry := by decide
  refine ⟨h1, h2, ?_⟩
  exact (c6_cleanup_iff staleBank (mkRat 3 10) 30 (30 * 86400000 + 1) "stale" staleEntry
    h1 h2).1.mpr (by decide)

/-! ### C5: merge resolution is additive -/

theorem storeFact_preserves_isSome (b : MemoryBank) (fact : LearnedFact)
    (related : List String) (now : Int) (id : String)
    (h : (alookup b.memory id).isSome = true) :
    (alookup (storeFact b fact related now).memory id).isSome = true := by
  rw [storeFact_memory]
  by_cases hid : id = fact.id
  · subst hid
    rw [alookup_aset_self]
    rfl
  · rw [alookup_aset_ne _ _ _ _ hid]
    exact h

theorem updateFactConfidence_preserves_isSome (b : MemoryBank) (factId : String)
    (c : ℚ) (v : Bool) (now : Int) (id : String)
    (h : (alookup b.memory id).isSome = true) :
    (alookup (updateFactConfidence b factId c v now).memory id).isSome = true := by
  unfold updateFactConfidence
  cases he : alookup b.memory factId with
  | none => exact h
  | some entry =>
    dsimp only
    by_cases hid : id = factId
    · subst hid
      rw [alookup_aset_self]
      rfl
    · rw [alookup_aset_ne _ _ _ _ hid]
      exact h

/-- C5: resolving a conflict with choice `merge` stores exactly one new
entry, under the fresh merged id, whose fact joins the two contents with
"; ", averages the two confidences and links both ancestor ids; every
other id maps to the same entry as before, and none of the three
resolution choices makes a previously retrievable id unretrievable. -/
theorem c5_merge_additive (b : MemoryBank) (ci : ConflictInfo) (now : Int)
    (hex : (alookup b.memory ci.existingFact.id).isSome = true)
    (hnew : (alookup b.memory ci.newFact.id).isSome = true)
    (hfresh : alookup b.memory ("merged_" ++ toString now) = none) :
    (alookup (resolveConflict b ci UserChoice.merge now).memory
        ("merged_" ++ toString now) =
      some
        { fact := mergedFactOf ci now, lastAccessed := now, accessCount := 0,
          verified := true,
          confidence := (ci.existingFact.confidence + ci.newFact.confidence) / 2,
          relatedFacts := [ci.existingFact.id, ci.newFact.id] }) ∧
    (mergedFactOf ci now).content =
      ci.existingFact.content ++ "; " ++ ci.newFact.content ∧
    (mergedFactOf ci now).confidence =
      (ci.existingFact.confidence + ci.newFact.confidence) / 2 ∧
    (∀ id, id ≠ "merged_" ++ toString now →
      alookup (resolveConflict b ci UserChoice.merge now).memory id =
        alookup b.memory id) ∧
    (resolveConflict b ci UserChoice.merge now).memory.length = b.memory.length + 1 ∧
    (∀ choice : UserChoice, ∀ id : String, (alookup b.memory id).isSome = true →
      (alookup (resolveConflict b ci choice now).memory id).isSome = true) := by
  refine ⟨?_, rfl, rfl, ?_, ?_, ?_⟩
  · show alookup (aset b.memory (mergedFactOf ci now).id _) _ = _
    exact alookup_aset_self _ _ _
  · intro id hid
    show alookup (aset b.memory (mergedFactOf ci now).id _) id = alookup b.memory id
    exact alookup_aset_ne _ _ _ _ hid
  · show (aset b.memory (mergedFactOf ci now).id _).length = b.memory.length + 1
    exact aset_length_new _ _ _ hfresh
  · intro choice id h
    cases choice with
    | new =>
      exact storeFact_preserves_isSome _ _ _ _ _
        (updateFactConfidence_preserves_isSome _ _ _ _ _ _ h)
    | existing =>
      exact storeFact_preserves_isSome _ _ _ _ _
        (updateFactConfidence_preserves_isSome _ _ _ _ _ _ h)
    | merge => exact storeFact_preserves_isSome _ _ _ _ _ h

/-- Witness for C5: merging the sample conflict in a bank holding both its
facts stores the merged entry and keeps both ancestors retrievable. -/
theorem c5_merge_additive_witness :
    ((alookup c5bank.memory "e1").isSome = true ∧
      (alookup c5bank.memory "n1").isSome = true ∧
      alookup c5bank.memory ("merged_" ++ toString (5 : Int)) = none) ∧
    (resolveConflict c5bank sampleConflict UserChoice.merge 5).memory.length =
      c5bank.memory.length + 1 ∧
    (alookup (resolveConflict c5bank sampleConflict UserChoice.merge 5).memory
        "e1").isSome = true := by
  have h := c5_merge_additive c5bank sampleConflict 5 (by decide) (by decide) (by decide)
  exact ⟨⟨by decide, by decide, by decide⟩, h.2.2.2.2.1,
    h.2.2.2.2.2 UserChoice.merge "e1" (by decide)⟩

/-! ### C3: index consistency -/

theorem bankInv_storeFact {F : List LearnedFact} {b : MemoryBank} {fact : LearnedFact}
    (related : List String) (now : Int) (hF : factsAgree F) (hf : fact ∈ F)
    (h : BankInv F b) : BankInv F (storeFact b fact related now) := by
  obtain ⟨h1, h2, h3, h4, h5, h6, h7⟩ := h
  have hcatOf : ∀ {e : MemoryEntry}, alookup b.memory fact.id = some e →
      e.fact.category = fact.category ∧ dateKey e.fact.timestamp = dateKey fact.timestamp := by
    intro e he
    have hmem := alookup_mem he
    have h4e := h4 _ hmem
    exact hF e.fact h4e.2 fact hf h4e.1
  refine ⟨?_, ?_, ?_, ?_, ?_, ?_, ?_⟩
  · rw [storeFact_memory]
    exact nodup_aset _ _ h1
  · rw [storeFact_categoryIndex]
    exact nodup_bucketAdd _ _ h2
  · rw [storeFact_timelineIndex]
    exact nodup_bucketAdd _ _ h3
  · intro p hp
    rw [storeFact_memory] at hp
    rcases mem_aset hp with hm | hm
    · exact h4 p hm
    · rw [hm]
      exact ⟨rfl, hf⟩
  · intro c id hid
    rw [storeFact_categoryIndex] at hid
    rw [storeFact_memory]
    rcases (mem_bucketAdd _ _ _ _ _).mp hid with ⟨hc, hid2⟩ | hid2
    · subst hc; subst hid2
      exact ⟨_, alookup_aset_self _ _ _, rfl⟩
    · obtain ⟨e, he, hcat⟩ := h5 c id hid2
      by_cases hidf : id = fact.id
      · subst hidf
        refine ⟨_, alookup_aset_self _ _ _, ?_⟩
        show fact.category = c
        rw [← (hcatOf he).1, hcat]
      · rw [alookup_aset_ne _ _ _ _ hidf]
        exact ⟨e, he, hcat⟩
  · intro d id hid
    rw [storeFact_timelineIndex] at hid
    rw [storeFact_memory]
    rcases (mem_bucketAdd _ _ _ _ _).mp hid with ⟨hc, hid2⟩ | hid2
    · subst hc; subst hid2
      exact ⟨_, alookup_aset_self _ _ _, rfl⟩
    · obtain ⟨e, he, hdk⟩ := h6 d id hid2
      by_cases hidf : id = fact.id
      · subst hidf
        refine ⟨_, alookup_aset_self _ _ _, ?_⟩
        show dateKey fact.timestamp = d
        rw [← (hcatOf he).2, hdk]
      · rw [alookup_aset_ne _ _ _ _ hidf]
        exact ⟨e, he, hdk⟩
  · intro p hp
    rw [storeFact_memory] at hp
    rw [storeFact_categoryIndex, storeFact_timelineIndex]
    rcases mem_aset hp with hm | hm
    · obtain ⟨hb1, hb2⟩ := h7 p hm
      exact ⟨(mem_bucketAdd _ _ _ _ _).mpr (Or.inr hb1),
        (mem_bucketAdd _ _ _ _ _).mpr (Or.inr hb2)⟩
    · rw [hm]
      exact ⟨(mem_bucketAdd _ _ _ _ _).mpr (Or.inl ⟨rfl, rfl⟩),
        (mem_bucketAdd _ _ _ _ _).mpr (Or.inl ⟨rfl, rfl⟩)⟩

theorem bankInv_updateFactConfidence {F : List LearnedFact} {b : MemoryBank}
    (factId : String) (c : ℚ) (v : Bool) (now : Int) (h : BankInv F b) :
    BankInv F (updateFactConfidence b factId c v now) := by
  unfold updateFactConfidence
  cases he : alookup b.memory factId with
  | none => exact h
  | some entry =>
    dsimp only
    obtain ⟨h1, h2, h3, h4, h5, h6, h7⟩ := h
    have hment := alookup_mem he
    have h4e := h4 _ hment
    refine ⟨nodup_aset _ _ h1, h2, h3, ?_, ?_, ?_, ?_⟩
    · intro p hp
      rcases mem_aset hp with hm | hm
      · exact h4 p hm
      · rw [hm]
        exact h4e
    · intro cc id hid
      obtain ⟨e, he2, hcat⟩ := h5 cc id hid
      by_cases hidf : id = factId
      · subst hidf
        rw [he] at he2
        injection he2 with he3
        refine ⟨_, alookup_aset_self _ _ _, ?_⟩
        show entry.fact.category = cc
        rw [he3]
        exact hcat
      · rw [alookup_aset_ne _ _ _ _ hidf]
        exact ⟨e, he2, hcat⟩
    · intro d id hid
      obtain ⟨e, he2, hdk⟩ := h6 d id hid
      by_cases hidf : id = factId
      · subst hidf
        rw [he] at he2
        injection he2 with he3
        refine ⟨_, alookup_aset_self _ _ _, ?_⟩
        show dateKey entry.fact.timestamp = d
        rw [he3]
        exact hdk
      · rw [alookup_aset_ne _ _ _ _ hidf]
        exact ⟨e, he2, hdk⟩
    · intro p hp
      rcases mem_aset hp with hm | hm
      · exact h7 p hm
      · rw [hm]
        exact h7 (factId, entry) hment

theorem bankInv_deleteFact {F : List LearnedFact} {b : MemoryBank} (factId : String)
    (h : BankInv F b) : BankInv F (deleteFact b factId) := by
  unfold deleteFact
  cases he : alookup b.memory factId with
  | none => exact h
  | some entry =>
    obtain ⟨h1, h2, h3, h4, h5, h6, h7⟩ := h
    refine ⟨nodup_aerase _ h1, nodup_bucketRemove _ _ h2, nodup_bucketRemove _ _ h3,
      ?_, ?_, ?_, ?_⟩
    · intro p hp
      exact h4 p (mem_aerase.mp hp).1
    · intro c id hid
      obtain ⟨hid2, hne⟩ := (mem_bucketRemove _ _ _ _ _).mp hid
      obtain ⟨e, he2, hcat⟩ := h5 c id hid2
      have hidf : id ≠ factId := by
        intro hc
        subst hc
        rw [he] at he2
        injection he2 with he3
        exact hne ⟨by rw [← hcat, he3], rfl⟩
      rw [alookup_aerase_ne _ _ _ hidf]
      exact ⟨e, he2, hcat⟩
    · intro d id hid
      obtain ⟨hid2, hne⟩ := (mem_bucketRemove _ _ _ _ _).mp hid
      obtain ⟨e, he2, hdk⟩ := h6 d id hid2
      have hidf : id ≠ factId := by
        intro hc
        subst hc
        rw [he] at he2
        injection he2 with he3
        exact hne ⟨by rw [← hdk, he3], rfl⟩
      rw [alookup_aerase_ne _ _ _ hidf]
      exact ⟨e, he2, hdk⟩
    · intro p hp
      obtain ⟨hm, hne⟩ := mem_aerase.mp hp
      obtain ⟨hb1, hb2⟩ := h7 p hm
      exact ⟨(mem_bucketRemove _ _ _ _ _).mpr ⟨hb1, fun hc => hne hc.2⟩,
        (mem_bucketRemove _ _ _ _ _).mpr ⟨hb2, fun hc => hne hc.2⟩⟩

theorem bankInv_cleanup {F : List LearnedFact} {b : MemoryBank} (minC : ℚ)
    (maxAge now : Int) (h : BankInv F b) : BankInv F (cleanup b minC maxAge now) := by
  unfold cleanup
  have hgen : ∀ (L : List String) (b2 : MemoryBank), BankInv F b2 →
      BankInv F (L.foldl deleteFact b2) := by
    intro L
    induction L with
    | nil => intro b2 hb; exact hb
    | cons j t ih =>
      intro b2 hb
      rw [List.foldl_cons]
      exact ih _ (bankInv_deleteFact j hb)
  exact hgen _ _ h

theorem bankInv_importInner {F : List LearnedFact} (c : Category) (now : Int)
    (hF : factsAgree F) (kvs : List (String × String)) :
    ∀ (b : MemoryBank), BankInv F b →
      (∀ kv ∈ kvs, importedFact kv.1 kv.2 c now ∈ F) →
      BankInv F (kvs.foldl
        (fun b2 kv => storeFact b2 (importedFact kv.1 kv.2 c now) [] now) b) := by
  induction kvs with
  | nil => intro b hb _; exact hb
  | cons kv rest ih =>
    intro b hb hkv
    rw [List.foldl_cons]
    exact ih _ (bankInv_storeFact [] now hF (hkv kv (List.mem_cons_self _ _)) hb)
      (fun q hq => hkv q (List.mem_cons_of_mem _ hq))

theorem bankInv_importKnowledge {F : List LearnedFact} {b : MemoryBank}
    (knowledge : Snapshot) (now : Int) (hF : factsAgree F)
    (hin : ∀ ck ∈ knowledge, ∀ kv ∈ ck.2, importedFact kv.1 kv.2 ck.1 now ∈ F)
    (h : BankInv F b) : BankInv F (importKnowledge b knowledge now) := by
  unfold importKnowledge
  induction knowledge generalizing b with
  | nil => exact h
  | cons ck rest ih =>
    rw [List.foldl_cons]
    exact ih (fun q hq => hin q (List.mem_cons_of_mem _ hq))
      (bankInv_importInner ck.1 now hF ck.2 b h
        (fun kv hkv => hin ck (List.mem_cons_self _ _) kv hkv))

theorem bankInv_applyOp {F : List LearnedFact} {b : MemoryBank} {op : MBOp}
    (hF : factsAgree F) (hops : ∀ f ∈ opFacts op, f ∈ F) (h : BankInv F b) :
    BankInv F (applyOp b op) := by
  cases op with
  | store fact related now =>
    exact bankInv_storeFact related now hF (hops fact (by simp [opFacts])) h
  | updateConf factId c v now => exact bankInv_updateFactConfidence factId c v now h
  | resolve ci choice now =>
    cases choice with
    | new =>
      exact bankInv_storeFact _ now hF (hops ci.newFact (by simp [opFacts]))
        (bankInv_updateFactConfidence _ _ _ now h)
    | existing =>
      exact bankInv_storeFact _ now hF
        (hops { ci.newFact with confidence := mkRat 2 10 } (by simp [opFacts]))
        (bankInv_updateFactConfidence _ _ _ now h)
    | merge =>
      exact bankInv_storeFact _ now hF (hops (mergedFactOf ci now) (by simp [opFacts])) h
  | importK knowledge now =>
    refine bankInv_importKnowledge knowledge now hF ?_ h
    intro ck hck kv hkv
    refine hops _ ?_
    simp only [opFacts, List.mem_flatMap]
    exact ⟨ck, hck, List.mem_map.mpr ⟨kv, hkv, rfl⟩⟩
  | clean minC maxAge now => exact bankInv_cleanup minC maxAge now h

theorem bankInv_empty (F : List LearnedFact) : BankInv F emptyBank := by
  refine ⟨by simp [emptyBank], by simp [emptyBank], by simp [emptyBank], ?_, ?_, ?_, ?_⟩
  · intro p hp; simp [emptyBank] at hp
  · intro c id hid; simp [emptyBank, alookup] at hid
  · intro d id hid; simp [emptyBank, alookup] at hid
  · intro p hp; simp [emptyBank] at hp

/-- C3 counterexample: the claim fails as stated; storing the same id
under two categories and then cleaning it up leaves the id orphaned in the
first category's bucket while no memory entry remains. -/
theorem c3_counterexample :
    ¬ IndexConsistent (runOps c3ops) ∧ (runOps c3ops).memory = [] ∧
      "a" ∈ (alookup (runOps c3ops).categoryIndex Category.personal).getD ∅ := by
  refine ⟨by decide, by decide, by decide⟩

/-- C3 (amended): for every call sequence made of storeFact,
updateFactConfidence, resolveConflict, importKnowledge and cleanup in
which all stored facts agree, per id, on category and calendar day (in
particular no id is re-stored under a different category or day), the
category and timeline indexes are exactly consistent with the entry map:
every id in any bucket has a memory entry, and every entry's id appears in
the bucket of its category and of its timestamp's day. -/
theorem c3_index_consistency (ops : List MBOp) (h : storedAgree ops) :
    IndexConsistent (runOps ops) := by
  have hF : factsAgree (ops.flatMap opFacts) := h
  have hinv : BankInv (ops.flatMap opFacts) (runOps ops) := by
    unfold runOps
    have hgen : ∀ (l : List MBOp) (b : MemoryBank),
        (∀ op ∈ l, ∀ f ∈ opFacts op, f ∈ ops.flatMap opFacts) →
        BankInv (ops.flatMap opFacts) b →
        BankInv (ops.flatMap opFacts) (l.foldl applyOp b) := by
      intro l
      induction l with
      | nil => intro b _ hb; exact hb
      | cons op rest ih =>
        intro b hops hb
        rw [List.foldl_cons]
        exact ih _ (fun o ho => hops o (List.mem_cons_of_mem _ ho))
          (bankInv_applyOp hF (hops op (List.mem_cons_self _ _)) hb)
    refine hgen ops emptyBank ?_ (bankInv_empty _)
    intro op hop f hf
    exact List.mem_flatMap.mpr ⟨op, hop, hf⟩
  obtain ⟨h1, h2, h3, h4, h5, h6, h7⟩ := hinv
  refine ⟨?_, ?_, ?_⟩
  · intro cs hcs id hid
    have hl : alookup (runOps ops).categoryIndex cs.1 = some cs.2 := by
      have : (cs.1, cs.2) ∈ (runOps ops).categoryIndex := by simpa using hcs
      exact alookup_of_mem_nodup this h2
    obtain ⟨e, he, -⟩ := h5 cs.1 id (by rw [hl]; simpa using hid)
    rw [he]
    rfl
  · intro ds hds id hid
    have hl : alookup (runOps ops).timelineIndex ds.1 = some ds.2 := by
      have : (ds.1, ds.2) ∈ (runOps ops).timelineIndex := by simpa using hds
      exact alookup_of_mem_nodup this h3
    obtain ⟨e, he, -⟩ := h6 ds.1 id (by rw [hl]; simpa using hid)
    rw [he]
    rfl
  · exact h7

/-- Witness for C3: storing two distinct facts and cleaning up leaves
consistent indexes when all stored ids keep one category and day. -/
theorem c3_index_consistency_witness :
    storedAgree [MBOp.store dupA1 [] 0, MBOp.store staleFact [] 0,
      MBOp.clean (mkRat 3 10) 30 (30 * 86400000 + 1)] ∧
    IndexConsistent (runOps [MBOp.store dupA1 [] 0, MBOp.store staleFact [] 0,
      MBOp.clean (mkRat 3 10) 30 (30 * 86400000 + 1)]) :=
  ⟨by decide, c3_index_consistency _ (by decide)⟩

/-! ### C4: export/import round trip -/

theorem snapKeys_nestedInsert_nodup (acc : Snapshot) (c : Category) (kv : String × String)
    (hnd : (acc.map Prod.fst).Nodup) : ((nestedInsert acc c kv).map Prod.fst).Nodup := by
  unfold nestedInsert
  cases hs : alookup acc c with
  | none =>
    rw [List.map_append]
    refine List.Nodup.append hnd (by simp) ?_
    intro a ha hb
    simp only [List.map_cons, List.map_nil, List.mem_singleton] at hb
    subst hb
    exact not_mem_keys_of_any_false (any_false_of_alookup_none hs) ha
  | some kvs => exact nodup_aset _ _ hnd

theorem snapTriples_nestedInsert (acc : Snapshot) (c : Category) (kv : String × String)
    (hnd : (acc.map Prod.fst).Nodup) (t : Category × String × String) :
    t ∈ snapTriples (nestedInsert acc c kv) ↔
      t ∈ snapTriples acc ∨ t = (c, kv.1, kv.2) := by
  unfold nestedInsert
  cases hs : alookup acc c with
  | none =>
    unfold snapTriples
    rw [List.flatMap_append]
    simp
  | some kvs =>
    have hpair : ∀ w, (c, w) ∈ acc → w = kvs := by
      intro w hw
      have h2 := alookup_of_mem_nodup hw hnd
      rw [hs] at h2
      injection h2 with h3
      exact h3.symm
    dsimp only
    unfold snapTriples aset
    rw [if_pos (any_true_of_alookup_some hs)]
    constructor
    · intro ht
      obtain ⟨q, hq, htq⟩ := List.mem_flatMap.mp ht
      obtain ⟨q0, hq0, hq0e⟩ := List.mem_map.mp hq
      by_cases hq0c : q0.1 = c
      · rw [if_pos hq0c] at hq0e
        rw [← hq0e] at htq
        simp only [List.map_append, List.mem_append] at htq
        rcases htq with ht1 | ht1
        · left
          refine List.mem_flatMap.mpr ⟨(c, kvs), alookup_mem hs, ?_⟩
          exact ht1
        · right
          simpa using ht1
      · rw [if_neg hq0c] at hq0e
        rw [← hq0e] at htq
        exact Or.inl (List.mem_flatMap.mpr ⟨q0, hq0, htq⟩)
    · intro ht
      rcases ht with ht | ht
      · obtain ⟨q, hq, htq⟩ := List.mem_flatMap.mp ht
        by_cases hqc : q.1 = c
        · have hq2 : q.2 = kvs := hpair q.2 (by rw [← hqc]; exact hq)
          refine List.mem_flatMap.mpr ⟨(c, kvs ++ [kv]), ?_, ?_⟩
          · refine List.mem_map.mpr ⟨q, hq, ?_⟩
            rw [if_pos hqc]
          · simp only [List.map_append, List.mem_append]
            left
            have : t ∈ q.2.map (fun x => (q.1, x.1, x.2)) := htq
            rw [hq2] at this
            have hrw : (fun x : String × String => (q.1, x.1, x.2)) =
                (fun x : String × String => (c, x.1, x.2)) := by
              funext x
              rw [hqc]
            rw [hrw] at this
            exact this
        · refine List.mem_flatMap.mpr ⟨q, ?_, htq⟩
          refine List.mem_map.mpr ⟨q, hq, ?_⟩
          rw [if_neg hqc]
      · refine List.mem_flatMap.mpr ⟨(c, kvs ++ [kv]), ?_, ?_⟩
        · refine List.mem_map.mpr ⟨(c, kvs), alookup_mem hs, ?_⟩
          simp
        · simp only [List.map_append, List.mem_append]
          right
          simp [ht]

theorem export_fold_sound (T : List (Category × String × String)) :
    ∀ (l : List (String × MemoryEntry)) (acc : Snapshot),
      (acc.map Prod.fst).Nodup → (∀ t ∈ snapTriples acc, t ∈ T) →
      (∀ p ∈ l, projTriple p ∈ T) →
      ∀ t ∈ snapTriples (l.foldl
        (fun a p => nestedInsert a p.2.fact.category (p.1, p.2.fact.content)) acc),
        t ∈ T := by
  intro l
  induction l with
  | nil => intro acc _ hacc _ t ht; exact hacc t ht
  | cons p rest ih =>
    intro acc hnd hacc hl t ht
    rw [List.foldl_cons] at ht
    refine ih _ (snapKeys_nestedInsert_nodup _ _ _ hnd) ?_
      (fun q hq => hl q (List.mem_cons_of_mem _ hq)) t ht
    intro t' ht'
    rcases (snapTriples_nestedInsert _ _ _ hnd t').mp ht' with h1 | h1
    · exact hacc t' h1
    · rw [h1]
      exact hl p (List.mem_cons_self _ _)

theorem exportKnowledge_sound (b : MemoryBank) :
    ∀ t ∈ snapTriples (exportKnowledge b), t ∈ bankTriples b := by
  intro t ht
  refine export_fold_sound (bankTriples b) b.memory [] (by simp) (by simp [snapTriples]) ?_ t ht
  intro p hp
  exact List.mem_map.mpr ⟨p, hp, rfl⟩

theorem storeImported_triples {b : MemoryBank} {k v : String} {c : Category} (now : Int)
    (hnd : keysNodup b) (e : MemoryEntry) (he : alookup b.memory k = some e)
    (hc : e.fact.category = c) (hv : e.fact.content = v) :
    bankTriples (storeFact b (importedFact k v c now) [] now) = bankTriples b ∧
      keysNodup (storeFact b (importedFact k v c now) [] now) := by
  constructor
  · unfold bankTriples
    rw [storeFact_memory]
    rw [show (importedFact k v c now).id = k from rfl]
    unfold aset
    rw [if_pos (any_true_of_alookup_some he)]
    rw [List.map_map]
    refine List.map_congr_left ?_
    intro p hp
    by_cases hpk : p.1 = k
    · have hpe : p.2 = e := by
        have h2 : alookup b.memory p.1 = some p.2 :=
          alookup_of_mem_nodup (by simpa using hp) hnd
        rw [hpk, he] at h2
        injection h2 with h3
        exact h3.symm
      simp only [Function.comp_apply, if_pos hpk]
      show (c, k, v) = projTriple p
      unfold projTriple
      rw [hpe, hpk, hc, hv]
    · simp only [Function.comp_apply, if_neg hpk]
  · unfold keysNodup
    rw [storeFact_memory]
    exact nodup_aset _ _ hnd

theorem importInner_triples (c : Category) (now : Int) :
    ∀ (kvs : List (String × String)) (b : MemoryBank), keysNodup b →
      (∀ kv ∈ kvs, (c, kv.1, kv.2) ∈ bankTriples b) →
      bankTriples (kvs.foldl
        (fun b2 kv => storeFact b2 (importedFact kv.1 kv.2 c now) [] now) b) =
          bankTriples b ∧
      keysNodup (kvs.foldl
        (fun b2 kv => storeFact b2 (importedFact kv.1 kv.2 c now) [] now) b) := by
  intro kvs
  induction kvs with
  | nil => intro b hnd _; exact ⟨rfl, hnd⟩
  | cons kv rest ih =>
    intro b hnd hkv
    rw [List.foldl_cons]
    have hkv0 := hkv kv (List.mem_cons_self _ _)
    obtain ⟨p, hp, hpt⟩ := List.mem_map.mp hkv0
    have hfields : p.2.fact.category = c ∧ p.1 = kv.1 ∧ p.2.fact.content = kv.2 := by
      unfold projTriple at hpt
      injection hpt with hf1 hf2
      injection hf2 with hf2 hf3
      exact ⟨hf1, hf2, hf3⟩
    have he : alookup b.memory kv.1 = some p.2 := by
      rw [← hfields.2.1]
      exact alookup_of_mem_nodup (by simpa using hp) hnd
    obtain ⟨heq, hnd'⟩ :=
      storeImported_triples now hnd p.2 he hfields.1 hfields.2.2
    obtain ⟨heq2, hnd2⟩ := ih _ hnd' (by
      intro q hq
      rw [heq]
      exact hkv q (List.mem_cons_of_mem _ hq))
    exact ⟨by rw [heq2, heq], hnd2⟩

theorem importKnowledge_triples (now : Int) :
    ∀ (snap : Snapshot) (b : MemoryBank), keysNodup b →
      (∀ t ∈ snapTriples snap, t ∈ bankTriples b) →
      bankTriples (importKnowledge b snap now) = bankTriples b ∧
        keysNodup (importKnowledge b snap now) := by
  intro snap
  induction snap with
  | nil => intro b hnd _; exact ⟨rfl, hnd⟩
  | cons ck rest ih =>
    intro b hnd hsnap
    unfold importKnowledge
    rw [List.foldl_cons]
    obtain ⟨heq, hnd'⟩ := importInner_triples ck.1 now ck.2 b hnd (by
      intro q hq
      refine hsnap _ ?_
      exact List.mem_flatMap.mpr ⟨ck, List.mem_cons_self _ _,
        List.mem_map.mpr ⟨q, hq, rfl⟩⟩)
    have hrest := ih _ hnd' (by
      intro t ht
      rw [heq]
      refine hsnap t ?_
      unfold snapTriples at ht ⊢
      rw [List.flatMap_cons]
      exact List.mem_append.mpr (Or.inr ht))
    unfold importKnowledge at hrest
    exact ⟨by rw [hrest.1, heq], hrest.2⟩

theorem goodAt_storeImported (b : MemoryBank) (k' v' : String) (c' : Category)
    (now : Int) (k : String)
    (h : ∃ e, alookup b.memory k = some e ∧ e.confidence = mkRat 8 10 ∧
      e.verified = true) :
    ∃ e, alookup (storeFact b (importedFact k' v' c' now) [] now).memory k = some e ∧
      e.confidence = mkRat 8 10 ∧ e.verified = true := by
  rw [storeFact_memory]
  rw [show (importedFact k' v' c' now).id = k' from rfl]
  by_cases hk : k = k'
  · subst hk
    exact ⟨_, alookup_aset_self _ _ _, rfl, rfl⟩
  · rw [alookup_aset_ne _ _ _ _ hk]
    exact h

theorem importInner_goodAt (c : Category) (now : Int) :
    ∀ (kvs : List (String × String)) (b : MemoryBank) (k : String),
      (k ∈ kvs.map Prod.fst ∨
        ∃ e, alookup b.memory k = some e ∧ e.confidence = mkRat 8 10 ∧
          e.verified = true) →
      ∃ e, alookup (kvs.foldl
          (fun b2 kv => storeFact b2 (importedFact kv.1 kv.2 c now) [] now) b).memory
        k = some e ∧ e.confidence = mkRat 8 10 ∧ e.verified = true := by
  intro kvs
  induction kvs with
  | nil =>
    intro b k h
    rcases h with h | h
    · simp at h
    · exact h
  | cons kv rest ih =>
    intro b k h
    rw [List.foldl_cons]
    by_cases hk : k = kv.1
    · refine ih _ k (Or.inr ?_)
      subst hk
      rw [storeFact_memory]
      exact ⟨_, alookup_aset_self _ _ _, rfl, rfl⟩
    · rcases h with h | h
      · rcases List.mem_map.mp h with ⟨q, hq, hqe⟩
        rcases List.mem_cons.mp hq with h1 | h1
        · exact absurd (by rw [← hqe, h1]) hk
        · exact ih _ k (Or.inl (List.mem_map.mpr ⟨q, h1, hqe⟩))
      · exact ih _ k (Or.inr (goodAt_storeImported b kv.1 kv.2 c now k h))

theorem import_goodAt (now : Int) :
    ∀ (snap : Snapshot) (b : MemoryBank) (k : String),
      ((∃ ck ∈ snap, k ∈ ck.2.map Prod.fst) ∨
        ∃ e, alookup b.memory k = some e ∧ e.confidence = mkRat 8 10 ∧
          e.verified = true) →
      ∃ e, alookup (importKnowledge b snap now).memory k = some e ∧
        e.confidence = mkRat 8 10 ∧ e.verified = true := by
  intro snap
  induction snap with
  | nil =>
    intro b k h
    rcases h with ⟨ck, hck, -⟩ | h
    · simp at hck
    · exact h
  | cons ck rest ih =>
    intro b k h
    unfold importKnowledge
    rw [List.foldl_cons]
    have ihu : ∀ (b2 : MemoryBank),
        ((∃ ck2 ∈ rest, k ∈ ck2.2.map Prod.fst) ∨
          ∃ e, alookup b2.memory k = some e ∧ e.confidence = mkRat 8 10 ∧
            e.verified = true) →
        ∃ e, alookup (rest.foldl (fun b3 ck3 => ck3.2.foldl
            (fun b4 kv => storeFact b4 (importedFact kv.1 kv.2 ck3.1 now) [] now) b3)
            b2).memory k = some e ∧ e.confidence = mkRat 8 10 ∧ e.verified = true := by
      intro b2 h2
      have := ih b2 k h2
      unfold importKnowledge at this
      exact this
    rcases h with ⟨ck2, hck2, hk⟩ | h
    · rcases List.mem_cons.mp hck2 with h1 | h1
      · subst h1
        exact ihu _ (Or.inr (importInner_goodAt ck2.1 now ck2.2 b k (Or.inl hk)))
      · exact ihu _ (Or.inl ⟨ck2, h1, hk⟩)
    · exact ihu _ (Or.inr (importInner_goodAt ck.1 now ck.2 b k (Or.inr h)))

/-- C4: for every bank with distinct keys, importing its own export yields
the same list of (category, id, content) triples (hence the same set);
and after importing any snapshot, every imported id maps to an entry with
confidence exactly 0.8 and verified set, regardless of the snapshot's
origin. -/
theorem c4_roundtrip (b : MemoryBank) (now : Int) (hnd : keysNodup b) :
    bankTriples (importKnowledge b (exportKnowledge b) now) = bankTriples b ∧
    (∀ (snap : Snapshot) (now2 : Int) (c : Category) (kvs : List (String × String))
      (k v : String), (c, kvs) ∈ snap → (k, v) ∈ kvs →
      ∃ e, alookup (importKnowledge b snap now2).memory k = some e ∧
        e.confidence = mkRat 8 10 ∧ e.verified = true) := by
  constructor
  · exact (importKnowledge_triples now (exportKnowledge b) b hnd
      (exportKnowledge_sound b)).1
  · intro snap now2 c kvs k v hsnap hkv
    refine import_goodAt now2 snap b k (Or.inl ⟨(c, kvs), hsnap, ?_⟩)
    exact List.mem_map.mpr ⟨(k, v), hkv, rfl⟩

/-- Witness for C4: a concrete one-fact bank round-trips its triples, and
an imported snapshot entry lands at confidence 0.8, verified. -/
theorem c4_roundtrip_witness :
    keysNodup staleBank ∧
    bankTriples (importKnowledge staleBank (exportKnowledge staleBank) 9) =
      bankTriples staleBank ∧
    ∃ e, alookup (importKnowledge staleBank spicySnap 9).memory "old1" = some e ∧
      e.confidence = mkRat 8 10 ∧ e.verified = true := by
  have h := c4_roundtrip staleBank 9 (by decide)
  exact ⟨by decide, h.1,
    h.2 spicySnap 9 Category.preferences [("old1", "I love spicy food")] "old1"
      "I love spicy food" (by decide) (by decide)⟩

/-! ### C7 and C10: conflict-detector properties -/

theorem emotionClash_fields (cid : String) (nf ef : LearnedFact) (nc ec : String) :
    ∀ (l : List (List String × List String)) (c : ConflictInfo),
      emotionClash cid nf ef nc ec l = some c →
      c.conflictType = ConflictType.contradiction ∧
        c.suggestedResolution = Resolution.clarify := by
  intro l
  induction l with
  | nil => intro c h; simp [emotionClash] at h
  | cons pr rest ih =>
    intro c h
    obtain ⟨pos, neg⟩ := pr
    rw [emotionClash] at h
    split at h
    · injection h with h3
      subst h3
      exact ⟨rfl, rfl⟩
    · exact ih c h

theorem checkContradiction_fields (cid : String) (nf ef : LearnedFact) (c : ConflictInfo)
    (h : checkContradiction cid nf ef = some c) :
    c.conflictType = ConflictType.contradiction ∧
      c.suggestedResolution = Resolution.clarify := by
  unfold checkContradiction at h
  dsimp only at h
  by_cases hcat : nf.category = Category.emotions
  · rw [if_pos hcat] at h
    cases hem : emotionClash cid nf ef (lcString nf.content) (lcString ef.content)
        emotionConflicts with
    | some c0 =>
      rw [hem] at h
      dsimp only at h
      injection h with h3
      subst h3
      exact emotionClash_fields cid nf ef _ _ emotionConflicts c0 hem
    | none =>
      rw [hem] at h
      dsimp only at h
      split at h
      all_goals try split at h
      all_goals try split at h
      all_goals try split at h
      all_goals first
      | exact Option.noConfusion h
      | (injection h with h3; subst h3; exact ⟨rfl, rfl⟩)
  · rw [if_neg hcat] at h
    dsimp only at h
    split at h
    all_goals try split at h
    all_goals try split at h
    all_goals try split at h
    all_goals first
    | exact Option.noConfusion h
    | (injection h with h3; subst h3; exact ⟨rfl, rfl⟩)

theorem checkTemporalConflict_fields (cid : String) (nf ef : LearnedFact)
    (c : ConflictInfo) (h : checkTemporalConflict cid nf ef = some c) :
    c.conflictType = ConflictType.temporal ∧
      c.suggestedResolution = Resolution.clarify := by
  unfold checkTemporalConflict at h
  dsimp only at h
  split at h
  all_goals try split at h
  all_goals try split at h
  all_goals try split at h
  all_goals try split at h
  all_goals first
  | exact Option.noConfusion h
  | (injection h with h3; subst h3; exact ⟨rfl, rfl⟩)

theorem checkInconsistency_of_mock (cid : String) (nf ef : LearnedFact)
    (hef : ef.confidence = mkRat 8 10) : checkInconsistency cid nf ef = none := by
  unfold checkInconsistency
  have hno : ¬ (nf.confidence < mkRat 6 10 ∧ ef.confidence > mkRat 8 10) := by
    rintro ⟨-, h2⟩
    rw [hef] at h2
    exact lt_irrefl _ h2
  rw [if_neg hno]

theorem checkAmbiguity_fields (cid : String) (nf ef : LearnedFact) (c : ConflictInfo)
    (h : checkAmbiguity cid nf ef = some c) :
    c.conflictType = ConflictType.ambiguity ∧
      c.suggestedResolution = Resolution.clarify := by
  unfold checkAmbiguity at h
  dsimp only at h
  split at h
  all_goals try split at h
  all_goals first
  | exact Option.noConfusion h
  | (injection h with h3; subst h3; exact ⟨rfl, rfl⟩)

theorem analyzeFactConflict_fields (cid : String) (nf : LearnedFact) (ec ek : String)
    (now : Int) (c : ConflictInfo)
    (h : analyzeFactConflict cid nf ec ek now = some c) :
    c.conflictType ≠ ConflictType.inconsistency ∧
      c.suggestedResolution = Resolution.clarify := by
  unfold analyzeFactConflict at h
  dsimp only at h
  cases h1 : checkContradiction cid nf (mockExistingFact nf ec ek now) with
  | some c0 =>
    rw [h1] at h
    dsimp only at h
    injection h with h3
    subst h3
    obtain ⟨ht, hr⟩ := checkContradiction_fields _ _ _ _ h1
    refine ⟨?_, hr⟩
    rw [ht]
    intro hc
    exact ConflictType.noConfusion hc
  | none =>
    rw [h1] at h
    dsimp only at h
    cases h2 : checkTemporalConflict cid nf (mockExistingFact nf ec ek now) with
    | some c0 =>
      rw [h2] at h
      dsimp only at h
      injection h with h3
      subst h3
      obtain ⟨ht, hr⟩ := checkTemporalConflict_fields _ _ _ _ h2
      refine ⟨?_, hr⟩
      rw [ht]
      intro hc
      exact ConflictType.noConfusion hc
    | none =>
      rw [h2] at h
      dsimp only at h
      rw [checkInconsistency_of_mock _ _ _ rfl] at h
      dsimp only at h
      obtain ⟨ht, hr⟩ := checkAmbiguity_fields _ _ _ _ h
      refine ⟨?_, hr⟩
      rw [ht]
      intro hc
      exact ConflictType.noConfusion hc

theorem detectPairs_fields (nf : LearnedFact) :
    ∀ (entries : List (String × String)) (now : Int) (counter : Nat) (c : ConflictInfo),
      c ∈ (detectPairs nf entries now counter).1 →
      c.conflictType ≠ ConflictType.inconsistency ∧
        c.suggestedResolution = Resolution.clarify := by
  intro entries
  induction entries with
  | nil => intro now counter c h; simp [detectPairs] at h
  | cons kv rest ih =>
    intro now counter c h
    obtain ⟨key, content⟩ := kv
    rw [detectPairs] at h
    cases ha : analyzeFactConflict (conflictIdStr now (counter + 1)) nf content key now with
    | some ci =>
      rw [ha] at h
      dsimp only at h
      rcases List.mem_cons.mp h with h1 | h1
      · subst h1
        exact analyzeFactConflict_fields _ _ _ _ _ _ ha
      · exact ih now (counter + 1) c h1
    | none =>
      rw [ha] at h
      dsimp only at h
      exact ih now counter c h

theorem detectLoop_fields (snap : Snapshot) (now : Int) :
    ∀ (newFacts : List LearnedFact) (counter : Nat) (c : ConflictInfo),
      c ∈ (detectLoop snap now newFacts counter).1 →
      c.conflictType ≠ ConflictType.inconsistency ∧
        c.suggestedResolution = Resolution.clarify := by
  intro newFacts
  induction newFacts with
  | nil => intro counter c h; simp [detectLoop] at h
  | cons nf rest ih =>
    intro counter c h
    rw [detectLoop] at h
    dsimp only at h
    rcases List.mem_append.mp h with h1 | h1
    · exact detectPairs_fields nf _ now _ c h1
    · exact ih _ c h1

/-- C10: the conflict detector never reports an inconsistency conflict and
its auto-resolvable list is always empty: the mock existing fact carries
confidence exactly 0.8, the inconsistency detector demands strictly more
than 0.8, and every reported conflict's suggested resolution is `clarify`
(never `update`, and `merge` only ever comes from the inconsistency
detector). -/
theorem c10_no_inconsistency (newFacts : List LearnedFact) (existingFacts : Snapshot)
    (now : Int) (counter : Nat) :
    ((detectConflicts newFacts existingFacts now counter).1.conflicts.filter
      (fun c => decide (c.conflictType = ConflictType.inconsistency))) = [] ∧
    ((detectConflicts newFacts existingFacts now counter).1.conflicts.filter
      (fun c => !decide (c.suggestedResolution = Resolution.clarify))) = [] ∧
    (detectConflicts newFacts existingFacts now counter).1.autoResolvable = [] ∧
    (∀ (nf : LearnedFact) (ec ek : String),
      (mockExistingFact nf ec ek now).confidence = mkRat 8 10 ∧
        checkInconsistency (conflictIdStr now counter) nf
          (mockExistingFact nf ec ek now) = none) := by
  have hall : ∀ c ∈ (detectLoop existingFacts now newFacts counter).1,
      c.conflictType ≠ ConflictType.inconsistency ∧
        c.suggestedResolution = Resolution.clarify :=
    fun c hc => detectLoop_fields existingFacts now newFacts counter c hc
  refine ⟨?_, ?_, ?_, ?_⟩
  · refine List.filter_eq_nil_iff.mpr ?_
    intro c hc
    simp only [decide_eq_true_eq]
    exact (hall c hc).1
  · refine List.filter_eq_nil_iff.mpr ?_
    intro c hc
    simp [(hall c hc).2]
  · show ((detectLoop existingFacts now newFacts counter).1.filter
      (fun c => !highPriority c && autoResolvableB c)) = []
    refine List.filter_eq_nil_iff.mpr ?_
    intro c hc
    have h2 := (hall c hc).2
    simp [autoResolvableB, h2]
  · intro nf ec ek
    exact ⟨rfl, checkInconsistency_of_mock _ _ _ rfl⟩

/-- C7: for every new fact of category `preferences` whose lowercased
content contains a like-polarity word while the existing snapshot content
contains a dislike-polarity word (or vice versa), if the two contents
share a common word longer than 3 characters, the pair's analysis reports
exactly one conflict, of type `contradiction` with severity `medium`; in
particular detectConflicts on the pair "I hate spicy food" (new) versus
"I love spicy food" (existing) reports exactly one such conflict. -/
theorem c7_preference_clash (newFact : LearnedFact)
    (existingContent existingKey cid : String) (now : Int)
    (hcat : newFact.category = Category.preferences)
    (hclash :
      (likeWords.any (fun word => strIncludes (lcString newFact.content) word) = true ∧
        dislikeWords.any (fun word => strIncludes (lcString existingContent) word) = true) ∨
      (dislikeWords.any (fun word => strIncludes (lcString newFact.content) word) = true ∧
        likeWords.any (fun word => strIncludes (lcString existingContent) word) = true))
    (hcommon :
      findCommonTerms (lcString newFact.content) (lcString existingContent) ≠ []) :
    (∃ c, analyzeFactConflict cid newFact existingContent existingKey now = some c ∧
      c.conflictType = ConflictType.contradiction ∧ c.severity = Severity.medium ∧
      c.newFact = newFact ∧ c.existingFact.id = existingKey ∧
      c.existingFact.content = existingContent) ∧
    ((detectConflicts [hateFact] spicySnap 0 0).1.conflicts.map
        (fun c => (c.conflictType, c.severity, c.newFact.category))) =
      [(ConflictType.contradiction, Severity.medium, Category.preferences)] := by
  constructor
  · have hcat_ne1 : ¬ newFact.category = Category.emotions := by
      rw [hcat]
      intro hc
      exact Category.noConfusion hc
    have hrel_ne : ¬ (newFact.category = Category.relationship ∧
        strIncludes (lcString newFact.content) "single" = true ∧
        strIncludes (lcString existingContent) "vahant" = true) := by
      rintro ⟨h1, -, -⟩
      rw [hcat] at h1
      exact Category.noConfusion h1
    have hcond : ((likeWords.any (fun word => strIncludes (lcString newFact.content) word) &&
        dislikeWords.any (fun word => strIncludes (lcString existingContent) word)) ||
        (dislikeWords.any (fun word => strIncludes (lcString newFact.content) word) &&
        likeWords.any (fun word => strIncludes (lcString existingContent) word))) = true := by
      rcases hclash with ⟨h1, h2⟩ | ⟨h1, h2⟩ <;> rw [h1, h2] <;> simp
    cases hterm :
        findCommonTerms (lcString newFact.content) (lcString existingContent) with
    | nil => exact absurd hterm hcommon
    | cons ct rest =>
      have hc : checkContradiction cid newFact
          (mockExistingFact newFact existingContent existingKey now) =
          some
            { conflictId := cid
              newFact := newFact
              existingFact := mockExistingFact newFact existingContent existingKey now
              conflictType := ConflictType.contradiction
              severity := Severity.medium
              clarificationQuestion :=
                "I'm confused - do you like or dislike " ++ ct ++ "? You've mentioned both!"
              suggestedResolution := Resolution.clarify } := by
        unfold checkContradiction mockExistingFact
        dsimp only
        rw [if_neg hcat_ne1]
        dsimp only
        rw [if_neg hrel_ne, if_pos hcat, if_pos hcond, hterm]
      have hall : analyzeFactConflict cid newFact existingContent existingKey now =
          some
            { conflictId := cid
              newFact := newFact
              existingFact := mockExistingFact newFact existingContent existingKey now
              conflictType := ConflictType.contradiction
              severity := Severity.medium
              clarificationQuestion :=
                "I'm confused - do you like or dislike " ++ ct ++ "? You've mentioned both!"
              suggestedResolution := Resolution.clarify } := by
        unfold analyzeFactConflict
        dsimp only
        rw [hc]
      exact ⟨_, hall, rfl, rfl, rfl, rfl, rfl⟩
  · decide

/-- Witness for C7: the scenario pair itself satisfies the hypotheses and
yields the medium contradiction verdict for the pair. -/
theorem c7_preference_clash_witness :
    ∃ c, analyzeFactConflict "conflict_0_1" hateFact "I love spicy food" "old1" 0 =
        some c ∧
      c.conflictType = ConflictType.contradiction ∧ c.severity = Severity.medium ∧
      c.newFact = hateFact ∧ c.existingFact.id = "old1" ∧
      c.existingFact.content = "I love spicy food" := by
  exact (c7_preference_clash hateFact "I love spicy food" "old1" "conflict_0_1" 0
    (by decide) (by decide) (by decide)).1

/-! ### C1: fallback extraction on the scenario message -/

/-- C1 counterexample: the fallback path returns no fact at all for the
scenario message — in particular not exactly one plans fact at confidence
0.7 mentioning "date" and "Sam" — since none of the four fallback regex
templates matches it (the date template demands "vahant" or "with him"
and the place template demands a literal "going to"). -/
theorem c1_counterexample :
    (fallbackFactExtraction samMsg 0 0).1.facts = [] ∧
    ¬ ∃ f : LearnedFact, (fallbackFactExtraction samMsg 0 0).1.facts = [f] ∧
      f.category = Category.plans ∧ f.confidence = mkRat 7 10 ∧
      strIncludes f.content "date" = true ∧ strIncludes f.content "Sam" = true := by
  have h : (fallbackFactExtraction samMsg 0 0).1.facts = [] := by decide
  refine ⟨h, ?_⟩
  rintro ⟨f, hf, -⟩
  rw [h] at hf
  exact List.noConfusion hf

/-- C1 (amended): for every call time and fact-counter state, the fallback
extraction of "I'm going on a date with Sam tomorrow" yields an empty fact
list and result confidence 0. -/
theorem c1_fallback_empty (now : Int) (factCounter : Nat) :
    (fallbackFactExtraction samMsg now factCounter).1.facts = [] ∧
    (fallbackFactExtraction samMsg now factCounter).1.confidence = 0 :=
  ⟨rfl, rfl⟩

/-! ### C8: session update deduplication -/

theorem messageExists_of_witness (s : ConversationSession) (m : ChatMessage)
    (h : ∃ ex ∈ s.messages, ex.id = m.id ∨
      (ex.text = m.text ∧ ex.sender = m.sender ∧
        (ex.timestamp - m.timestamp).natAbs < 1000)) :
    messageExists s m = true := by
  obtain ⟨ex, hex, hor⟩ := h
  unfold messageExists
  refine List.any_eq_true.mpr ⟨ex, hex, ?_⟩
  rcases hor with h1 | ⟨h1, h2, h3⟩
  · simp [h1]
  · simp [h1, h2, h3]

theorem updateSession_skip (sessions : SessionMap) (sessionId : String)
    (m : ChatMessage) (es : Option String) (now : Int) (s : ConversationSession)
    (hs : sessions sessionId = some s) (hd : messageExists s m = true) :
    updateSession sessions sessionId m es now = sessions := by
  unfold updateSession
  rw [hs]
  dsimp only
  rw [if_pos hd]

theorem updateSession_append (sessions : SessionMap) (sessionId : String)
    (m : ChatMessage) (es : Option String) (now : Int) (s : ConversationSession)
    (hs : sessions sessionId = some s) (hd : messageExists s m = false) :
    ∃ s3, updateSession sessions sessionId m es now sessionId = some s3 ∧
      s3.messages = s.messages ++ [m] := by
  have hneg : ¬ (messageExists s m = true) := by
    rw [hd]
    exact Bool.false_ne_true
  unfold updateSession
  rw [hs]
  dsimp only
  rw [if_neg hneg]
  refine ⟨_, if_pos rfl, ?_⟩
  dsimp only
  by_cases hu : m.sender = "user"
  · rw [if_pos hu]
    cases es with
    | none => rfl
    | some e =>
      dsimp only
      by_cases heq : e = ""
      · rw [if_pos heq]
      · rw [if_neg heq]
  · rw [if_neg hu]
    cases es with
    | none => rfl
    | some e =>
      dsimp only
      by_cases heq : e = ""
      · rw [if_pos heq]
      · rw [if_neg heq]

/-- C8: whenever some already-stored message of the session has the same
id as the incoming message, or the same text and sender with timestamps
strictly less than 1000 ms apart, `updateSession` leaves the whole session
map (in particular the session's messages) unchanged; and updating twice
with the same message grows the session's message count by at most 1. -/
theorem c8_update_dedup (sessions : SessionMap) (sessionId : String) (m : ChatMessage)
    (es1 es2 : Option String) (now1 now2 : Int) :
    (∀ s, sessions sessionId = some s →
      (∃ ex ∈ s.messages, ex.id = m.id ∨
        (ex.text = m.text ∧ ex.sender = m.sender ∧
          (ex.timestamp - m.timestamp).natAbs < 1000)) →
      updateSession sessions sessionId m es1 now1 = sessions) ∧
    sessionMsgCount
      (updateSession (updateSession sessions sessionId m es1 now1) sessionId m es2 now2)
      sessionId ≤ sessionMsgCount sessions sessionId + 1 := by
  constructor
  · intro s hs hex
    exact updateSession_skip sessions sessionId m es1 now1 s hs
      (messageExists_of_witness s m hex)
  · cases hs : sessions sessionId with
    | none =>
      have h1 : updateSession sessions sessionId m es1 now1 = sessions := by
        unfold updateSession
        rw [hs]
      rw [h1]
      have h2 : updateSession sessions sessionId m es2 now2 = sessions := by
        unfold updateSession
        rw [hs]
      rw [h2]
      exact Nat.le_succ _
    | some s =>
      by_cases hd : messageExists s m = true
      · have h1 := updateSession_skip sessions sessionId m es1 now1 s hs hd
        rw [h1]
        have h2 := updateSession_skip sessions sessionId m es2 now2 s hs hd
        rw [h2]
        exact Nat.le_succ _
      · have hd' : messageExists s m = false := by
          cases hb : messageExists s m with
          | false => rfl
          | true => exact absurd hb hd
        obtain ⟨s3, h31, h32⟩ :=
          updateSession_append sessions sessionId m es1 now1 s hs hd'
        have hdup : messageExists s3 m = true := by
          unfold messageExists
          refine List.any_eq_true.mpr ⟨m, ?_, ?_⟩
          · rw [h32]
            exact List.mem_append.mpr (Or.inr (List.mem_singleton.mpr rfl))
          · simp
        have h2 : updateSession (updateSession sessions sessionId m es1 now1) sessionId
            m es2 now2 = updateSession sessions sessionId m es1 now1 := by
          generalize hM : updateSession sessions sessionId m es1 now1 = M at h31 ⊢
          unfold updateSession
          rw [h31]
          dsimp only
          rw [if_pos hdup]
        rw [h2]
        unfold sessionMsgCount
        rw [h31, hs]
        dsimp only
        rw [h32]
        simp

/-- Witness for C8: in the sample session, re-sending the stored message
leaves the map unchanged, and two updates with a fresh message add one. -/
theorem c8_update_dedup_witness :
    updateSession sampleSessions "s1" sampleMsg (some "happy") 5 = sampleSessions ∧
    sessionMsgCount
      (updateSession (updateSession sampleSessions "s1" sampleMsg (some "happy") 5)
        "s1" sampleMsg none 6) "s1" ≤ sessionMsgCount sampleSessions "s1" + 1 := by
  have h := c8_update_dedup sampleSessions "s1" sampleMsg (some "happy") none 5 6
  refine ⟨?_, h.2⟩
  exact h.1
    { sessionId := "s1", messages := [sampleMsg], lastActivity := 0,
      context :=
        { currentTopics := [], emotionalState := "neutral", ongoingConcerns := [] } }
    (by decide)
    ⟨sampleMsg, List.mem_singleton.mpr rfl, Or.inl rfl⟩
